import Mathlib

/-!
Verification development for the XPS IRF simulator (TypeScript sources).

The TypeScript modules are shallowly embedded over the real numbers:

* JavaScript `number` arithmetic is modelled by exact real arithmetic (`ℝ`).
  `x / 0 = 0` in Lean where JavaScript produces `Infinity`/`NaN`; every place
  where a call site can reach such a division is noted next to the definition.
* JavaScript arrays become `List ℝ`; an out-of-range read (`undefined` in JS,
  which poisons later arithmetic as `NaN`) is modelled by `List.getD` with
  default `0`.  All call sites exercised by the theorems below stay in range.
* `arr.map((v, i) => f v i)` is embedded as
  `(List.range arr.length).map (fun i => f (arr.getD i 0) i)`.
* The one source of ambient nondeterminism, `Math.random()` (used only by
  `addNoise`), is made explicit as an entropy stream `ℕ → ℝ` consumed
  sequentially.  The seeded Mulberry32 generator of the optimizer is embedded
  bit-exactly on `ℕ` with explicit `% 2^32` reductions.
* A mutable closure captured by an objective function (the evaluation counter
  of `estimateIRFParameters`) is threaded through the optimizer as an explicit
  state component `σ`; pure objectives use `σ = Unit`.
* The `NaN` marker that `curveFit` stores in `paramErrors` is modelled by
  `Option ℝ` (`none` = the not-a-number marker).  The `!isFinite` test of the
  source is identically false in the real-number model and is noted where it
  is dropped.
* The unbounded `while` loop that rejection-samples three distinct population
  indices in `differentialEvolution` is modelled by bounded unrolling with a
  large fuel (`selectionFuel`); every terminating run of the source that
  consumes at most that many draws is represented exactly.
-/

namespace XPS

noncomputable section

/-- Boltzmann constant in eV/K (source `physics.ts` and `fitting.ts`). -/
def KB : ℝ := 8.617333262e-5

/-- JavaScript `Math.max(...list)` for the nonempty lists used by the source
(`Math.max` of an empty spread is `-Infinity`, which has no real counterpart;
every call site below passes a nonempty list or the result is unused). -/
def listMax : List ℝ → ℝ
  | [] => 0
  | x :: xs => xs.foldl max x

/-- Error function approximation (source `physics.ts`, `erf`):
Abramowitz–Stegun rational approximation, computed for `|x|` and multiplied
by the sign of `x`. -/
def erf (x : ℝ) : ℝ :=
  let sign : ℝ := if x < 0 then -1 else 1
  let ax := |x|
  let t := 1 / (1 + 0.3275911 * ax)
  let y := 1 -
    ((((1.061405429 * t + -1.453152027) * t + 1.421413741) * t + -0.284496736) * t
        + 0.254829592) * t * Real.exp (-ax * ax)
  sign * y

/-- Pointwise body of the Fermi–Dirac distribution of `physics.ts`
(the `temp < 0.1` step branch taken inside rather than outside the map;
`fermiDirac_eq_map_fdPoint` below ties it to the list-level source form). -/
def fdPoint (e temp ef : ℝ) : ℝ :=
  if temp < 0.1 then (if e ≤ ef then 1 else 0)
  else 1 / (Real.exp (max (-100) (min 100 ((e - ef) / (KB * temp)))) + 1)

/-- Fermi–Dirac distribution on a list of energies (source `physics.ts`,
`fermiDirac`); `ef` defaults to `0` at the call sites. -/
def fermiDirac (energy : List ℝ) (temp : ℝ) (ef : ℝ) : List ℝ :=
  if temp < 0.1 then
    energy.map (fun e => if e ≤ ef then (1 : ℝ) else 0)
  else
    energy.map (fun e =>
      1 / (Real.exp (max (-100) (min 100 ((e - ef) / (KB * temp)))) + 1))

/-- Skew Gaussian distribution (source `physics.ts`, `skewGaussian`). -/
def skewGaussian (x : List ℝ) (sigma gamma : ℝ) : List ℝ :=
  let sqrt2pi := Real.sqrt (2 * Real.pi)
  let sqrt2 := Real.sqrt 2
  x.map (fun xi =>
    let phi := Real.exp (-xi * xi / (2 * sigma * sigma)) / (sigma * sqrt2pi)
    let cdf := 0.5 * (1 + erf (gamma * xi / (sigma * sqrt2)))
    2 * phi * cdf)

/-- 2D elliptical skew Gaussian (source `physics.ts`, `ellipticalGaussian2D`);
normalized to unit total sum when the raw sum exceeds `1e-12`. -/
def ellipticalGaussian2D (E Y : List (List ℝ)) (sigmaX sigmaY gammaX gammaY rotation : ℝ) :
    List (List ℝ) :=
  let theta := rotation * Real.pi / 180
  let cosTheta := Real.cos theta
  let sinTheta := Real.sin theta
  let sqrt2 := Real.sqrt 2
  let result := (List.range E.length).map (fun i =>
    (List.range (E.headI.length)).map (fun j =>
      let x := (E.getD i []).getD j 0
      let y := (Y.getD i []).getD j 0
      let xRot := x * cosTheta - y * sinTheta
      let yRot := x * sinTheta + y * cosTheta
      let phiX := Real.exp (-xRot * xRot / (2 * sigmaX * sigmaX))
      let cdfX := 0.5 * (1 + erf (gammaX * xRot / (sigmaX * sqrt2)))
      let distX := 2 * phiX * cdfX
      let phiY := Real.exp (-yRot * yRot / (2 * sigmaY * sigmaY))
      let cdfY := 0.5 * (1 + erf (gammaY * yRot / (sigmaY * sqrt2)))
      let distY := 2 * phiY * cdfY
      distX * distY))
  let total := (result.map List.sum).sum
  if total > 1e-12 then result.map (fun row => row.map (fun v => v / total)) else result

/-- Fueled binary search of `interp` (source `physics.ts`): the `while`
loop halves `hi - lo` each pass, so fuel `xOld.length` always suffices. -/
def bsearchGo (xOld : List ℝ) (x : ℝ) : ℕ → ℕ → ℕ → ℕ
  | 0, lo, _hi => lo
  | fuel + 1, lo, hi =>
    if hi - lo > 1 then
      let mid := (lo + hi) / 2
      if xOld.getD mid 0 ≤ x then bsearchGo xOld x fuel mid hi
      else bsearchGo xOld x fuel lo mid
    else lo

/-- Linear interpolation with out-of-range fill (source `physics.ts`,
`interp`).  After the search loop terminates `hi = lo + 1`, so the
interpolation interval is `[lo, lo+1]`. -/
def interp (xNew xOld yOld : List ℝ) (leftVal rightVal : Option ℝ) : List ℝ :=
  let left := leftVal.getD (yOld.getD 0 0)
  let right := rightVal.getD (yOld.getD (yOld.length - 1) 0)
  xNew.map (fun x =>
    if x ≤ xOld.getD 0 0 then left
    else if xOld.getD (xOld.length - 1) 0 ≤ x then right
    else
      let lo := bsearchGo xOld x xOld.length 0 (xOld.length - 1)
      let t := (x - xOld.getD lo 0) / (xOld.getD (lo + 1) 0 - xOld.getD lo 0)
      yOld.getD lo 0 + t * (yOld.getD (lo + 1) 0 - yOld.getD lo 0))

/-- 1D convolution with edge padding (source `physics.ts`, `convolve`). -/
def convolve (data kernel : List ℝ) : List ℝ :=
  let padSize := kernel.length / 2
  let n := data.length
  let padded := List.replicate padSize (data.getD 0 0) ++ data
    ++ List.replicate padSize (data.getD (n - 1) 0)
  (List.range n).map (fun i =>
    ((List.range kernel.length).map (fun k => padded.getD (i + k) 0 * kernel.getD k 0)).sum)

/-- The unnormalized Gaussian kernel samples `exp(−(i·de)²/(2σ²))` for
`i ∈ [−w, w]` with `w = ⌈5σ/de⌉`, written with index `k = i + w` (the loop
body of `gaussianKernel` in source `physics.ts`). -/
def gkKernelRaw (sigma de : ℝ) : List ℝ :=
  (List.range (2 * (⌈5 * sigma / de⌉).toNat + 1)).map (fun (k : ℕ) =>
    let x := ((k : ℝ) - (((⌈5 * sigma / de⌉).toNat : ℕ) : ℝ)) * de
    Real.exp (-x * x / (2 * sigma * sigma)))

/-- Gaussian kernel (source `physics.ts`, `gaussianKernel`): half-width
`⌈5σ/de⌉`, identity kernel `[1]` when the half-width is not positive,
otherwise the sampled Gaussian normalized to unit sum. -/
def gaussianKernel (sigma de : ℝ) : List ℝ :=
  if ⌈5 * sigma / de⌉ ≤ 0 then [1]
  else (gkKernelRaw sigma de).map (fun v => v / (gkKernelRaw sigma de).sum)

/-- `linspace` (source `physics.ts`). -/
def linspace (a b : ℝ) (num : ℕ) : List ℝ :=
  let step := (b - a) / ((num : ℝ) - 1)
  (List.range num).map (fun (i : ℕ) => a + (i : ℝ) * step)

/-- `meshgrid` (source `physics.ts`): `E[i][j] = x[j]`, `Y[i][j] = y[i]`. -/
def meshgrid (xAxis yAxis : List ℝ) : List (List ℝ) × List (List ℝ) :=
  (yAxis.map (fun _ => xAxis), yAxis.map (fun y => xAxis.map (fun _ => y)))

/-- Physical input parameters of the simulator (source `simulator.ts`,
`SimulatorParams`); the two optional noise levels are `Option ℝ`. -/
structure SimulatorParams where
  sigmaX : ℝ
  sigmaY : ℝ
  alpha : ℝ
  gammaX : ℝ
  gammaY : ℝ
  kappa : ℝ
  theta : ℝ
  sigmaRes : ℝ
  temp : ℝ
  poissonNoise : Option ℝ := none
  gaussianNoise : Option ℝ := none

/-- Output of the simulator (source `simulator.ts`, `SimulationResult`). -/
structure SimulationResult where
  energy : List ℝ
  spectrum : List ℝ
  spectrumClean : List ℝ
  idealFD : List ℝ
  irf : List ℝ
  image2D : List (List ℝ)
  spotProfile : List (List ℝ)
  yAxis : List ℝ
  sigmaSource : ℝ
  sigmaDetector : ℝ
  sigmaCombined : ℝ

/-- Calculation grid (source `simulator.ts`, `Grid`). -/
structure Grid where
  eAxis : List ℝ
  yAxis : List ℝ
  E : List (List ℝ)
  Y : List (List ℝ)
  de : ℝ

/-- `createGrid` (source `simulator.ts`). -/
def createGrid (eStart eEnd : ℝ) (eSteps : ℕ) (yStart yEnd : ℝ) (ySteps : ℕ) : Grid :=
  let eAxis := linspace eStart eEnd eSteps
  let yAxis := linspace yStart yEnd ySteps
  let mesh := meshgrid eAxis yAxis
  { eAxis := eAxis, yAxis := yAxis, E := mesh.1, Y := mesh.2
    de := eAxis.getD 1 0 - eAxis.getD 0 0 }

/-- The extended internal grid of `simulate` (range −0.15..0.15 eV). -/
def gridExtended : Grid := createGrid (-0.15) 0.15 750 (-10) 10 200

/-- The display grid of `simulate` (range −0.1..0.1 eV). -/
def gridDisplay : Grid := createGrid (-0.1) 0.1 500 (-10) 10 200

/-- 2D emission from the X-ray source (source `simulator.ts`,
`generate2DEmission`). -/
def generate2DEmission (grid : Grid) (trueSpectrum : List ℝ) (sigmaY gammaY alpha : ℝ) :
    List (List ℝ) :=
  let yDistribution := skewGaussian grid.yAxis sigmaY gammaY
  (List.range grid.yAxis.length).map (fun i =>
    let yVal := grid.yAxis.getD i 0
    let shift := alpha * yVal
    let shiftedEnergy := grid.eAxis.map (fun e => e - shift)
    let shiftedSpec := interp shiftedEnergy grid.eAxis trueSpectrum
      (some (trueSpectrum.getD 0 0)) (some 0)
    shiftedSpec.map (fun v => v * yDistribution.getD i 0))

/-- 2D spot profile (source `simulator.ts`, `get2DSpotProfile`). -/
def get2DSpotProfile (grid : Grid) (sigmaX sigmaY gammaX gammaY : ℝ) : List (List ℝ) :=
  ellipticalGaussian2D grid.E grid.Y sigmaX sigmaY gammaX gammaY 0

/-- Read `data[i][j]` with the JS `data[i]?.[j] ?? 0` convention (a negative
or out-of-range index yields `0`). -/
def get2 (data : List (List ℝ)) (i j : ℤ) : ℝ :=
  if i < 0 ∨ j < 0 then 0 else (data.getD i.toNat []).getD j.toNat 0

/-- Bilinear interpolation in a 2D array (source `simulator.ts`,
`bilinearInterp`); out-of-range queries return 0. -/
def bilinearInterp (yAxis xAxis : List ℝ) (data : List (List ℝ)) (y x : ℝ) : ℝ :=
  let yMin := yAxis.getD 0 0
  let yMax := yAxis.getD (yAxis.length - 1) 0
  let xMin := xAxis.getD 0 0
  let xMax := xAxis.getD (xAxis.length - 1) 0
  if y < yMin ∨ y > yMax ∨ x < xMin ∨ x > xMax then 0
  else
    let yStep := (yMax - yMin) / ((yAxis.length : ℝ) - 1)
    let xStep := (xMax - xMin) / ((xAxis.length : ℝ) - 1)
    let yi := (y - yMin) / yStep
    let xi := (x - xMin) / xStep
    let y0 : ℤ := ⌊yi⌋
    let x0 : ℤ := ⌊xi⌋
    let y1 : ℤ := min (y0 + 1) ((yAxis.length : ℤ) - 1)
    let x1 : ℤ := min (x0 + 1) ((xAxis.length : ℤ) - 1)
    let yt := yi - (y0 : ℝ)
    let xt := xi - (x0 : ℝ)
    let v00 := get2 data y0 x0
    let v01 := get2 data y0 x1
    let v10 := get2 data y1 x0
    let v11 := get2 data y1 x1
    v00 * (1 - xt) * (1 - yt) + v01 * xt * (1 - yt) + v10 * (1 - xt) * yt + v11 * xt * yt

/-- Projection of the 2D image to the 1D spectrum through the distorted
detector, followed by the two resolution convolutions (source `simulator.ts`,
`projectTo1D`). -/
def projectTo1D (grid : Grid) (image2D : List (List ℝ)) (kappa theta sigmaSource sigmaDetector : ℝ) :
    List ℝ :=
  let thetaRad := theta * Real.pi / 180
  let cosTheta := Real.cos thetaRad
  let sinTheta := Real.sin thetaRad
  let rows := grid.yAxis.length
  let cols := grid.eAxis.length
  let yMax := listMax (grid.yAxis.map (fun v => |v|))
  let distortedImg := (List.range rows).map (fun i =>
    (List.range cols).map (fun j =>
      let e := (grid.E.getD i []).getD j 0
      let y := (grid.Y.getD i []).getD j 0
      let yNorm := y / yMax
      let eSrc := e * cosTheta + y * sinTheta
      let ySrc := -e * sinTheta + y * cosTheta
      let eSrcCurved := eSrc - kappa * (yNorm * yNorm)
      bilinearInterp grid.yAxis grid.eAxis image2D ySrc eSrcCurved))
  let spec1D := (List.range cols).map (fun j =>
    ((List.range rows).map (fun i => (distortedImg.getD i []).getD j 0)).sum)
  let spec2 :=
    if sigmaSource > 0 then convolve spec1D (gaussianKernel sigmaSource grid.de) else spec1D
  if sigmaDetector > 0 then convolve spec2 (gaussianKernel sigmaDetector grid.de) else spec2

/-- One Box–Muller standard normal variate from two uniform draws
(inline in source `simulator.ts`, `addNoise`). -/
def boxMuller (u1 u2 : ℝ) : ℝ :=
  Real.sqrt (-2 * Real.log u1) * Real.cos (2 * Real.pi * u2)

/-- Worker of `addNoise`, consuming the entropy stream sequentially from
position `k` (source `simulator.ts`, `addNoise`; each `Math.random()` call is
one stream position). -/
def addNoiseGo (entropy : ℕ → ℝ) (poissonLevel gaussianLevel : ℝ) :
    List ℝ → ℕ → List ℝ
  | [], _ => []
  | val :: rest, k =>
    let step1 : ℝ × ℕ :=
      if poissonLevel > 1e-5 then
        let scaleFactor := 1000 / poissonLevel
        let lam := val * scaleFactor
        let z := boxMuller (entropy k) (entropy (k + 1))
        ((lam + z * Real.sqrt (max lam 0)) / scaleFactor, k + 2)
      else (val, k)
    let step2 : ℝ × ℕ :=
      if gaussianLevel > 0 then
        (step1.1 + boxMuller (entropy step1.2) (entropy (step1.2 + 1)) * (gaussianLevel / 100),
          step1.2 + 2)
      else step1
    max 0 step2.1 :: addNoiseGo entropy poissonLevel gaussianLevel rest step2.2

/-- Noise model (source `simulator.ts`, `addNoise`). -/
def addNoise (entropy : ℕ → ℝ) (spectrum : List ℝ) (poissonLevel gaussianLevel : ℝ) : List ℝ :=
  addNoiseGo entropy poissonLevel gaussianLevel spectrum 0

/-- Numerical gradient: central differences inside, one-sided at the two
endpoints (source `simulator.ts`, `gradient`; faithful for `data.length ≥ 2`,
which holds at the single call site where the length is 500). -/
def gradient (data : List ℝ) (dx : ℝ) : List ℝ :=
  let n := data.length
  (List.range n).map (fun i =>
    if i = 0 then (data.getD 1 0 - data.getD 0 0) / dx
    else if i = n - 1 then (data.getD (n - 1) 0 - data.getD (n - 2) 0) / dx
    else (data.getD (i + 1) 0 - data.getD (i - 1) 0) / (2 * dx))

/-- Step 9 of `simulate`: the near-zero-temperature (T = 0.01 K) step
spectrum used for IRF extraction, interpolated onto the display grid. -/
def stepSpectrumOf (params : SimulatorParams) : List ℝ :=
  let stepFD := fermiDirac gridExtended.eAxis 0.01 0
  let stepImage := generate2DEmission gridExtended stepFD params.sigmaY params.gammaY params.alpha
  let stepSpectrumExtended := projectTo1D gridExtended stepImage params.kappa params.theta
    (params.sigmaX / 1000) (params.sigmaRes / 1000)
  interp gridDisplay.eAxis gridExtended.eAxis stepSpectrumExtended none none

/-- The raw (unnormalized) IRF: numerical gradient of the step spectrum with
spacing `gridDisplay.de` (step 9 of `simulate`). -/
def irfRawOf (params : SimulatorParams) : List ℝ :=
  gradient (stepSpectrumOf params) gridDisplay.de

/-- Main simulation pipeline (source `simulator.ts`, `simulate`).  The
entropy stream feeds only the noise step. -/
def simulate (entropy : ℕ → ℝ) (params : SimulatorParams) : SimulationResult :=
  let sigmaSourceEV := params.sigmaX / 1000
  let sigmaDetectorEV := params.sigmaRes / 1000
  let sigmaCombinedMeV := Real.sqrt (params.sigmaX ^ 2 + params.sigmaRes ^ 2)
  let idealFDExtended := fermiDirac gridExtended.eAxis params.temp 0
  let image2DExtended := generate2DEmission gridExtended idealFDExtended params.sigmaY
    params.gammaY params.alpha
  let spotProfile := get2DSpotProfile gridDisplay sigmaSourceEV params.sigmaY
    params.gammaX params.gammaY
  let spectrumRawExtended := projectTo1D gridExtended image2DExtended params.kappa params.theta
    sigmaSourceEV sigmaDetectorEV
  let spectrumRaw := interp gridDisplay.eAxis gridExtended.eAxis spectrumRawExtended none none
  let maxVal := listMax spectrumRaw
  let spectrumClean := spectrumRaw.map (fun v => v / (maxVal + 1e-12))
  let spectrum := addNoise entropy spectrumClean (params.poissonNoise.getD 0)
    (params.gaussianNoise.getD 0)
  let idealFD := fermiDirac gridDisplay.eAxis params.temp 0
  let irfRaw := irfRawOf params
  let irfMax := listMax (irfRaw.map (fun v => |v|))
  let irf := irfRaw.map (fun v => -v / (irfMax + 1e-12))
  let image2D := generate2DEmission gridDisplay idealFD params.sigmaY params.gammaY params.alpha
  { energy := gridDisplay.eAxis.map (fun e => e * 1000)
    spectrum := spectrum
    spectrumClean := spectrumClean
    idealFD := idealFD
    irf := irf
    image2D := image2D
    spotProfile := spotProfile
    yAxis := gridDisplay.yAxis
    sigmaSource := params.sigmaX
    sigmaDetector := params.sigmaRes
    sigmaCombined := sigmaCombinedMeV }

/-- Default simulator parameters (source `simulator.ts`, `defaultParams`). -/
def defaultParams : SimulatorParams :=
  { sigmaX := 0.5, sigmaY := 0.5, alpha := 0.002, gammaX := 0, gammaY := 0
    kappa := 0.01, theta := 0.08, sigmaRes := 1.5, temp := 5
    poissonNoise := some 2, gaussianNoise := some 1 }

/-- Paired optimization bounds (source `optimization.ts`,
`OptimizationBounds`). -/
structure OptimizationBounds where
  lower : List ℝ
  upper : List ℝ

/-- Differential-evolution options with the source defaults (source
`optimization.ts`, `DEOptions`; the effect-only `onProgress` callback does not
influence any result field and is omitted). -/
structure DEOptions where
  maxIterations : ℕ := 100
  populationSize : ℕ := 15
  mutationFactor : ℝ := 0.8
  crossoverRate : ℝ := 0.7
  tolerance : ℝ := 1e-8
  seed : ℕ := 42

/-- Differential-evolution result (source `optimization.ts`, `DEResult`). -/
structure DEResult where
  x : List ℝ
  fitness : ℝ
  iterations : ℕ
  converged : Bool

/-- 32-bit output pipeline of the Mulberry32 generator applied to the updated
seed `s` (source `optimization.ts`, `createRandom`).  JS coerces every bitwise
operand to 32 bits, so all intermediates are reduced `% 2^32`; the unsigned
shifts `>>> k` are divisions by `2^k` on the 32-bit pattern. -/
def mulberryOut (s : ℕ) : ℕ :=
  let t0 := s % 4294967296
  let t1 := ((t0 ^^^ (t0 / 32768)) * (t0 ||| 1)) % 4294967296
  let t2 := (t1 ^^^ ((t1 + ((t1 ^^^ (t1 / 128)) * (t1 ||| 61)) % 4294967296) % 4294967296))
    % 4294967296
  (t2 ^^^ (t2 / 16384)) % 4294967296

/-- The state increment `seed += 0x6D2B79F5` of Mulberry32.  JS performs this
addition in float64, which is exact for the call counts reachable here, so it
is modelled without reduction; `mulberryOut` reduces `% 2^32` at use. -/
def mulberryStep (s : ℕ) : ℕ := s + 1831565813

/-- One call of the closure returned by `createRandom`: advance the state and
return the fresh uniform value in `[0, 1)` together with the new state. -/
def draw (s : ℕ) : ℝ × ℕ :=
  let s2 := mulberryStep s
  (((mulberryOut s2 : ℕ) : ℝ) / 4294967296, s2)

/-- Fuel bound for the index-rejection `while` loop of the DE mutation step;
any terminating run of the source consuming at most this many draws per
selection is represented exactly. -/
def selectionFuel : ℕ := 1000000

/-- Rejection sampling of three distinct population indices different from
`i` (the `while (candidates.length < 3)` loop of `differentialEvolution`).
On fuel exhaustion (a run the source would never finish) the accumulator is
padded with index 0. -/
def pickCandidatesGo (popSize i : ℕ) : ℕ → List ℕ → ℕ → List ℕ × ℕ
  | 0, acc, s => ((acc ++ List.replicate 3 0).take 3, s)
  | fuel + 1, acc, s =>
    if acc.length ≥ 3 then (acc, s)
    else
      let d := draw s
      let idx := (⌊d.1 * (popSize : ℝ)⌋).toNat
      if idx ≠ i ∧ idx ∉ acc then pickCandidatesGo popSize i fuel (acc ++ [idx]) d.2
      else pickCandidatesGo popSize i fuel acc d.2

/-- Binomial crossover of `differentialEvolution`: walk the target vector at
index `j`, drawing `random() < CR` first and — only when that fails — a fresh
`⌊random()·dim⌋` to compare with `j` (the `||` of the source short-circuits).
Returns the trial vector and the advanced generator state. -/
def crossoverTrial (CR : ℝ) (dim : ℕ) (donor : List ℝ) :
    List ℝ → ℕ → ℕ → List ℝ × ℕ
  | [], _, s => ([], s)
  | val :: rest, j, s =>
    let d1 := draw s
    if d1.1 < CR then
      let tail := crossoverTrial CR dim donor rest (j + 1) d1.2
      (donor.getD j 0 :: tail.1, tail.2)
    else
      let d2 := draw d1.2
      let pick := if (j : ℤ) = ⌊d2.1 * (dim : ℝ)⌋ then donor.getD j 0 else val
      let tail := crossoverTrial CR dim donor rest (j + 1) d2.2
      (pick :: tail.1, tail.2)

/-- Mutable optimizer state of one `differentialEvolution` call; `σ` threads
the state of a stateful objective closure (`Unit` for pure objectives). -/
structure DEState (σ : Type) where
  population : List (List ℝ)
  fitness : List ℝ
  bestIdx : ℕ
  bestFitness : ℝ
  bestIndividual : List ℝ
  iteration : ℕ
  converged : Bool
  prevBestFitness : ℝ
  rng : ℕ
  objState : σ

/-- Draw one initial individual, component `j` being
`low + random()·(high − low)` (initialization loop of
`differentialEvolution`). -/
def drawIndividual (upper : List ℝ) : List ℝ → ℕ → ℕ → List ℝ × ℕ
  | [], _, s => ([], s)
  | low :: rest, j, s =>
    let d := draw s
    let tail := drawIndividual upper rest (j + 1) d.2
    ((low + d.1 * (upper.getD j 0 - low)) :: tail.1, tail.2)

/-- Initial population: individuals and their fitness values, drawn and
evaluated in source order while threading the generator and objective
states. -/
def initPop {σ : Type} (obj : σ → List ℝ → ℝ × σ) (lower upper : List ℝ) :
    ℕ → ℕ → σ → List (List ℝ) × List ℝ × ℕ × σ
  | 0, s, os => ([], [], s, os)
  | n + 1, s, os =>
    let ind := drawIndividual upper lower 0 s
    let fit := obj os ind.1
    let rest := initPop obj lower upper n ind.2 fit.2
    (ind.1 :: rest.1, fit.1 :: rest.2.1, rest.2.2)

/-- Best-of-population scan: start from entry 0, strict improvement wins
(the `for (let i = 1; ...)` scan of `differentialEvolution`). -/
def bestScanGo : List ℝ → ℕ → ℕ × ℝ → ℕ × ℝ
  | [], _, acc => acc
  | f :: rest, i, acc => bestScanGo rest (i + 1) (if f < acc.2 then (i, f) else acc)

/-- Index and value of the best (smallest) initial fitness. -/
def bestScan (fits : List ℝ) : ℕ × ℝ := bestScanGo (fits.drop 1) 1 (0, fits.getD 0 0)

/-- Initial `differentialEvolution` state for a given seed. -/
def deInit {σ : Type} (obj : σ → List ℝ → ℝ × σ) (os0 : σ) (lower upper : List ℝ)
    (opts : DEOptions) : DEState σ :=
  let ip := initPop obj lower upper opts.populationSize opts.seed os0
  let bs := bestScan ip.2.1
  { population := ip.1, fitness := ip.2.1, bestIdx := bs.1, bestFitness := bs.2
    bestIndividual := ip.1.getD bs.1 [], iteration := 0, converged := false
    prevBestFitness := bs.2, rng := ip.2.2.1, objState := ip.2.2.2 }

/-- Body of the population sweep of one DE iteration: mutation, bound clamp,
crossover, evaluation, selection, running-best update — in source order,
threading generator and objective state through targets `i`. -/
def deInner {σ : Type} (obj : σ → List ℝ → ℝ × σ) (lower upper : List ℝ) (F CR : ℝ)
    (popSize dim : ℕ) : List ℕ → DEState σ → DEState σ
  | [], st => st
  | i :: rest, st =>
    let pc := pickCandidatesGo popSize i selectionFuel [] st.rng
    let a := pc.1.getD 0 0
    let b := pc.1.getD 1 0
    let c := pc.1.getD 2 0
    let rowA := st.population.getD a []
    let rowB := st.population.getD b []
    let rowC := st.population.getD c []
    let donor0 := (List.range rowA.length).map (fun j =>
      rowA.getD j 0 + F * (rowB.getD j 0 - rowC.getD j 0))
    let donor := (List.range donor0.length).map (fun j =>
      if j < dim then max (lower.getD j 0) (min (upper.getD j 0) (donor0.getD j 0))
      else donor0.getD j 0)
    let target := st.population.getD i []
    let ct := crossoverTrial CR dim donor target 0 pc.2
    let trial := ct.1
    let ev := obj st.objState trial
    let trialFitness := ev.1
    let st2 :=
      if trialFitness < st.fitness.getD i 0 then
        let stSel := { st with population := st.population.set i trial
                               fitness := st.fitness.set i trialFitness
                               rng := ct.2, objState := ev.2 }
        if trialFitness < st.bestFitness then
          { stSel with bestFitness := trialFitness, bestIndividual := trial, bestIdx := i }
        else stSel
      else { st with rng := ct.2, objState := ev.2 }
    deInner obj lower upper F CR popSize dim rest st2

/-- One full DE iteration: population sweep, iteration counter, convergence
test `|best − prevBest| < tol`, update of the previous best. -/
def deStep {σ : Type} (obj : σ → List ℝ → ℝ × σ) (lower upper : List ℝ) (opts : DEOptions)
    (dim : ℕ) (st : DEState σ) : DEState σ :=
  let st1 := deInner obj lower upper opts.mutationFactor opts.crossoverRate
    opts.populationSize dim (List.range opts.populationSize) st
  let st2 := { st1 with iteration := st1.iteration + 1 }
  let st3 := if |st2.bestFitness - st2.prevBestFitness| < opts.tolerance then
      { st2 with converged := true }
    else st2
  { st3 with prevBestFitness := st3.bestFitness }

/-- Exit condition of the `while (iteration < maxIterations && !converged)`
loop. -/
def deStop {σ : Type} (maxIter : ℕ) (st : DEState σ) : Bool :=
  decide (maxIter ≤ st.iteration) || st.converged

/-- The DE main loop; `deStep` increments `iteration`, so fuel
`opts.maxIterations` makes this exactly the source `while` loop. -/
def deLoop {σ : Type} (obj : σ → List ℝ → ℝ × σ) (lower upper : List ℝ) (opts : DEOptions)
    (dim : ℕ) : ℕ → DEState σ → DEState σ
  | 0, st => st
  | fuel + 1, st =>
    if deStop opts.maxIterations st then st
    else deLoop obj lower upper opts dim fuel (deStep obj lower upper opts dim st)

/-- Result extraction from the final optimizer state. -/
def deExtract {σ : Type} (st : DEState σ) : DEResult :=
  { x := st.bestIndividual, fitness := st.bestFitness, iterations := st.iteration
    converged := st.converged }

/-- `differentialEvolution` (source `optimization.ts`) with an explicitly
threaded stateful objective; returns the result together with the final
objective-closure state. -/
def differentialEvolution {σ : Type} (obj : σ → List ℝ → ℝ × σ) (os0 : σ)
    (bounds : OptimizationBounds) (opts : DEOptions) : DEResult × σ :=
  let dim := bounds.lower.length
  let final := deLoop obj bounds.lower bounds.upper opts dim opts.maxIterations
    (deInit obj os0 bounds.lower bounds.upper opts)
  (deExtract final, final.objState)

/-- `differentialEvolution` for a pure objective. -/
def differentialEvolutionP (f : List ℝ → ℝ) (bounds : OptimizationBounds)
    (opts : DEOptions) : DEResult :=
  (differentialEvolution (fun (u : Unit) x => (f x, u)) () bounds opts).1

/-- A value `r` is the outcome of a run of `differentialEvolution`: there is
a trace of optimizer states starting from the seeded initial state, advancing
by whole DE iterations, whose first state satisfying the loop exit condition
yields `r`.  Two runs of the source on identical inputs are two such traces. -/
def IsDERun {σ : Type} (obj : σ → List ℝ → ℝ × σ) (os0 : σ) (bounds : OptimizationBounds)
    (opts : DEOptions) (r : DEResult) : Prop :=
  ∃ t : ℕ → DEState σ,
    t 0 = deInit obj os0 bounds.lower bounds.upper opts ∧
    (∀ k, t (k + 1) = deStep obj bounds.lower bounds.upper opts bounds.lower.length (t k)) ∧
    ∃ n, deStop opts.maxIterations (t n) = true ∧
      (∀ m, m < n → deStop opts.maxIterations (t m) = false) ∧
      r = deExtract (t n)

/-- A function `v` lists the successive outputs of the Mulberry32 closure
created from `seed`: some state sequence starts at `seed`, advances by the
Mulberry32 increment, and `v n` is the output pipeline applied to the state
after the `n`-th increment. -/
def IsMulberryStream (seed : ℕ) (v : ℕ → ℕ) : Prop :=
  ∃ s : ℕ → ℕ, s 0 = seed ∧ (∀ n, s (n + 1) = mulberryStep (s n)) ∧
    ∀ n, v n = mulberryOut (s (n + 1))

/-- Levenberg–Marquardt options with source defaults (source
`optimization.ts`, `LMOptions`). -/
structure LMOptions where
  maxIterations : ℕ := 100
  tolerance : ℝ := 1e-8
  lambda : ℝ := 0.001
  lambdaUp : ℝ := 10
  lambdaDown : ℝ := 0.1

/-- Levenberg–Marquardt result (source `optimization.ts`, `LMResult`). -/
structure LMResult where
  x : List ℝ
  residuals : List ℝ
  jacobian : List (List ℝ)
  covariance : List (List ℝ)
  iterations : ℕ
  converged : Bool

/-- Sum of squared residuals (source `optimization.ts`, `sumSquares`). -/
def sumSquares (residuals : List ℝ) : ℝ :=
  residuals.foldl (fun sum r => sum + r * r) 0

/-- Forward-difference Jacobian (source `optimization.ts`,
`computeJacobian`). -/
def computeJacobian (func : List ℝ → List ℝ) (params : List ℝ) (delta : ℝ) :
    List (List ℝ) :=
  let residuals := func params
  let n := residuals.length
  let p := params.length
  let cols := (List.range p).map (fun j =>
    func ((List.range p).map (fun k => params.getD k 0 + if k = j then delta else 0)))
  (List.range n).map (fun i =>
    (List.range p).map (fun j => ((cols.getD j []).getD i 0 - residuals.getD i 0) / delta))

/-- Row index of the partial pivot for column `col`: first row at or below
`col` whose entry has strictly largest magnitude (source `optimization.ts`,
`solve`). -/
def pivotRow (aug : List (List ℝ)) (col n : ℕ) : ℕ :=
  ((List.range (n - (col + 1))).map (fun k => col + 1 + k)).foldl
    (fun best row =>
      if |(aug.getD row []).getD col 0| > |(aug.getD best []).getD col 0| then row else best)
    col

/-- Swap two rows of the augmented matrix. -/
def swapRows (aug : List (List ℝ)) (r1 r2 : ℕ) : List (List ℝ) :=
  let row1 := aug.getD r1 []
  let row2 := aug.getD r2 []
  (aug.set r1 row2).set r2 row1

/-- One column of Gaussian elimination: pivot, swap, `1e-12` regularization
of a vanishing pivot, elimination of the rows below (source
`optimization.ts`, `solve`). -/
def elimColumn (n col : ℕ) (aug : List (List ℝ)) : List (List ℝ) :=
  let maxRow := pivotRow aug col n
  let aug1 := swapRows aug col maxRow
  let aug2 :=
    if |(aug1.getD col []).getD col 0| < 1e-12 then
      aug1.set col ((aug1.getD col []).set col 1e-12)
    else aug1
  (List.range aug2.length).map (fun row =>
    if col < row ∧ row < n then
      let factor := (aug2.getD row []).getD col 0 / (aug2.getD col []).getD col 0
      (List.range (aug2.getD row []).length).map (fun j =>
        if col ≤ j then (aug2.getD row []).getD j 0 - factor * (aug2.getD col []).getD j 0
        else (aug2.getD row []).getD j 0)
    else aug2.getD row [])

/-- Back substitution, building `x` from the last unknown down (source
`optimization.ts`, `solve`). -/
def backSub (aug : List (List ℝ)) (n : ℕ) : ℕ → List ℝ → List ℝ
  | 0, acc => acc
  | i + 1, acc =>
    let xi := ((aug.getD i []).getD n 0 -
        (((List.range acc.length).map (fun k =>
          (aug.getD i []).getD (i + 1 + k) 0 * acc.getD k 0)).sum)) /
      (aug.getD i []).getD i 0
    backSub aug n i (xi :: acc)

/-- Linear solver `Ax = b`: Gaussian elimination with partial pivoting and
back substitution (source `optimization.ts`, `solve`). -/
def solve (A : List (List ℝ)) (b : List ℝ) : List ℝ :=
  let n := A.length
  let aug := (List.range n).map (fun i => (A.getD i []) ++ [b.getD i 0])
  let reduced := (List.range n).foldl (fun m col => elimColumn n col m) aug
  backSub reduced n n []

/-- Matrix inverse, one solved unit column at a time (source
`optimization.ts`, `inverse`). -/
def inverse (A : List (List ℝ)) : List (List ℝ) :=
  let n := A.length
  let cols := (List.range n).map (fun i =>
    solve A ((List.range n).map (fun k => if k = i then 1 else 0)))
  (List.range n).map (fun j => (List.range n).map (fun i => (cols.getD i []).getD j 0))

/-- `JᵀJ` with the inner sum running over `nRes` residual rows exactly as in
the source loops. -/
def jtjOf (jacobian : List (List ℝ)) (nRes p : ℕ) : List (List ℝ) :=
  (List.range p).map (fun i => (List.range p).map (fun j =>
    ((List.range nRes).map (fun k =>
      (jacobian.getD k []).getD i 0 * (jacobian.getD k []).getD j 0)).sum))

/-- Mutable state of the Levenberg–Marquardt loop. -/
structure LMState where
  params : List ℝ
  residuals : List ℝ
  cost : ℝ
  lambda : ℝ
  jacobian : List (List ℝ)
  iteration : ℕ
  converged : Bool

/-- One Levenberg–Marquardt iteration: damped normal equations, candidate
step, accept (decrease damping, recompute Jacobian, convergence test) or
reject (increase damping) — source `optimization.ts`,
`levenbergMarquardt`. -/
def lmStep (func : List ℝ → List ℝ) (opts : LMOptions) (st : LMState) : LMState :=
  let p := st.params.length
  let JTJ := jtjOf st.jacobian st.residuals.length p
  let JTr := (List.range p).map (fun i =>
    ((List.range st.residuals.length).map (fun k =>
      (st.jacobian.getD k []).getD i 0 * st.residuals.getD k 0)).sum)
  let damped := (List.range p).map (fun i => (List.range p).map (fun j =>
    let val := (JTJ.getD i []).getD j 0
    if i = j then val + st.lambda * (val + 1e-10) else val))
  let negJTr := JTr.map (fun v => -v)
  let delta := solve damped negJTr
  let newParams := (List.range st.params.length).map (fun i =>
    st.params.getD i 0 + delta.getD i 0)
  let newResiduals := func newParams
  let newCost := sumSquares newResiduals
  if newCost < st.cost then
    let improvement := st.cost - newCost
    let conv := improvement < opts.tolerance * newCost ∨
      listMax (delta.map (fun d => |d|)) < opts.tolerance
    { params := newParams, residuals := newResiduals, cost := newCost
      lambda := st.lambda * opts.lambdaDown
      jacobian := computeJacobian func newParams 1e-7
      iteration := st.iteration + 1
      converged := decide conv }
  else
    { st with lambda := st.lambda * opts.lambdaUp, iteration := st.iteration + 1 }

/-- The LM `while (iteration < maxIterations && !converged)` loop; fuel
`maxIterations` is exact since each step increments `iteration`. -/
def lmLoop (func : List ℝ → List ℝ) (opts : LMOptions) : ℕ → LMState → LMState
  | 0, st => st
  | fuel + 1, st =>
    if opts.maxIterations ≤ st.iteration ∨ st.converged then st
    else lmLoop func opts fuel (lmStep func opts st)

/-- `levenbergMarquardt` (source `optimization.ts`): run the damped
Gauss–Newton loop, then form the covariance from the regularized final
`JᵀJ`; an ill-conditioned inverse (`max|entry| > 1e10`; the `!isFinite` test
of the source is identically false over `ℝ`) falls back to the diagonal
proxy `variance·0.01·I`. -/
def levenbergMarquardt (func : List ℝ → List ℝ) (initialParams : List ℝ)
    (opts : LMOptions) : LMResult :=
  let residuals0 := func initialParams
  let final := lmLoop func opts opts.maxIterations
    { params := initialParams, residuals := residuals0, cost := sumSquares residuals0
      lambda := opts.lambda, jacobian := computeJacobian func initialParams 1e-7
      iteration := 0, converged := false }
  let p := final.params.length
  let JTJf := (List.range p).map (fun i => (List.range p).map (fun j =>
    (jtjOf final.jacobian final.residuals.length p).getD i [] |>.getD j 0
      |> (fun v => if i = j then v + 1e-10 else v)))
  let variance := final.cost / ((max 1 (final.residuals.length - p) : ℕ) : ℝ)
  let invJTJ := inverse JTJf
  let maxVal := listMax (invJTJ.flatten.map (fun v => |v|))
  let covariance :=
    if maxVal > 1e10 then
      (List.range p).map (fun i => (List.range p).map (fun j =>
        if i = j then variance * 0.01 else 0))
    else invJTJ.map (fun row => row.map (fun v => v * variance))
  { x := final.params, residuals := final.residuals, jacobian := final.jacobian
    covariance := covariance, iterations := final.iteration, converged := final.converged }

/-- Options of `curveFit` (source `optimization.ts`, `CurveFitOptions`). -/
structure CurveFitOptions where
  useGlobalOpt : Bool := true
  deOptions : DEOptions := {}
  lmOptions : LMOptions := {}

/-- Result of `curveFit` (source `optimization.ts`, `CurveFitResult`); a
`paramErrors` entry is `none` exactly where the source stores the `NaN`
marker displayed as N/A. -/
structure CurveFitResult where
  params : List ℝ
  paramErrors : List (Option ℝ)
  covariance : List (List ℝ)
  residuals : List ℝ
  rSquared : ℝ
  converged : Bool

/-- `curveFit` (source `optimization.ts`): optional DE global search, LM
refinement, projection of the refined parameters into the bounds, R² against
the sample mean, and sanitized `paramErrors` from the covariance diagonal. -/
def curveFit (model : List ℝ → List ℝ → List ℝ) (xData yData initialParams : List ℝ)
    (bounds : OptimizationBounds) (options : CurveFitOptions) : CurveFitResult :=
  let residualFunc := fun (params : List ℝ) =>
    (List.range yData.length).map (fun i => yData.getD i 0 - (model xData params).getD i 0)
  let objective := fun params => sumSquares (residualFunc params)
  let optimizedParams :=
    if options.useGlobalOpt then (differentialEvolutionP objective bounds options.deOptions).x
    else initialParams
  let lmResult := levenbergMarquardt residualFunc optimizedParams options.lmOptions
  let finalParams := (List.range lmResult.x.length).map (fun i =>
    max (bounds.lower.getD i 0) (min (bounds.upper.getD i 0) (lmResult.x.getD i 0)))
  let yMean := yData.foldl (fun a b => a + b) 0 / (yData.length : ℝ)
  let ssTot := yData.foldl (fun sum y => sum + (y - yMean) ^ 2) 0
  let ssRes := sumSquares lmResult.residuals
  let rSquared := 1 - ssRes / ssTot
  let paramErrors : List (Option ℝ) := (List.range lmResult.covariance.length).map (fun i =>
    let err := Real.sqrt |(lmResult.covariance.getD i []).getD i 0|
    let paramValue := |finalParams.getD i 0| + 1e-10
    if err > 1e6 ∨ err > paramValue * 100 then none else some err)
  { params := finalParams, paramErrors := paramErrors, covariance := lmResult.covariance
    residuals := lmResult.residuals, rSquared := rSquared, converged := lmResult.converged }

/-- Fermi–Dirac convolved with a Gaussian instrument function (source
`fitting.ts`, `fermiDiracConvolved`). -/
def fermiDiracConvolved (energy : List ℝ) (efShift temp sigmaTotal : ℝ) : List ℝ :=
  let de := |energy.getD 1 0 - energy.getD 0 0|
  let nPad : ℕ := (max 10 (min 1000 ⌈10 * sigmaTotal / de⌉)).toNat
  let ePadLeft := (List.range nPad).map (fun (k : ℕ) =>
    energy.getD 0 0 - ((nPad : ℝ) - (k : ℝ)) * de)
  let ePadRight := (List.range nPad).map (fun (k : ℕ) =>
    energy.getD (energy.length - 1) 0 + ((k : ℝ) + 1) * de)
  let energyPadded := ePadLeft ++ energy ++ ePadRight
  let fdPadded := energyPadded.map (fun e =>
    if temp < 0.1 then (if e ≤ efShift then (1 : ℝ) else 0)
    else 1 / (Real.exp (max (-100) (min 100 ((e - efShift) / (KB * temp)))) + 1))
  let kernel := gaussianKernel sigmaTotal de
  let convolvedFull := convolve fdPadded kernel
  (convolvedFull.drop nPad).take energy.length

/-- Fermi-edge model with temperature as a free parameter (source
`fitting.ts`, `fermiEdgeModelWithTemp`). -/
def fermiEdgeModelWithTemp (energy params : List ℝ) : List ℝ :=
  let conv := fermiDiracConvolved energy (params.getD 0 0) (params.getD 2 0) (params.getD 1 0)
  conv.map (fun v => params.getD 3 0 * v + params.getD 4 0)

/-- Fermi-edge model with fixed temperature (source `fitting.ts`,
`createFermiEdgeModelFixedTemp`). -/
def fermiEdgeModelFixedTemp (fixedTemp : ℝ) (energy params : List ℝ) : List ℝ :=
  let conv := fermiDiracConvolved energy (params.getD 0 0) fixedTemp (params.getD 1 0)
  conv.map (fun v => params.getD 2 0 * v + params.getD 3 0)

/-- Fermi-edge fit result (source `fitting.ts`, `FermiEdgeFitResult`); the
error fields inherit the `Option ℝ` NaN-marker model of `paramErrors`. -/
structure FermiEdgeFitResult where
  success : Bool
  efShift : ℝ
  efShiftError : Option ℝ
  sigmaTotal : ℝ
  sigmaTotalError : Option ℝ
  tempFit : ℝ
  tempError : Option ℝ
  amplitude : ℝ
  offset : ℝ
  fittedSpectrum : List ℝ
  rSquared : ℝ
  residuals : List ℝ
  errorMessage : Option String := none

/-- `fitFermiEdge` (source `fitting.ts`).  The source wraps the body in
`try/catch` and returns `success = false` only from the `catch` arm; no
operation reachable from the body throws in JavaScript (array reads yield
`undefined`/`NaN`, arithmetic on them never raises), so the embedding is the
total happy path and `success` is the literal `true` of the source. -/
def fitFermiEdge (energy observedSpectrum : List ℝ) (temp : ℝ)
    (fitTemp useGlobalOpt : Bool) : FermiEdgeFitResult :=
  if fitTemp then
    let bounds : OptimizationBounds :=
      { lower := [-0.05, 0.0001, 0.1, 0.5, -0.5], upper := [0.05, 0.05, 300, 2, 0.5] }
    let initialParams := [0, 0.005, temp, 1, 0]
    let result := curveFit fermiEdgeModelWithTemp energy observedSpectrum initialParams bounds
      { useGlobalOpt := useGlobalOpt
        deOptions := { maxIterations := 100, populationSize := 15 } }
    { success := true
      efShift := result.params.getD 0 0
      efShiftError := result.paramErrors.getD 0 none
      sigmaTotal := result.params.getD 1 0
      sigmaTotalError := result.paramErrors.getD 1 none
      tempFit := result.params.getD 2 0
      tempError := result.paramErrors.getD 2 none
      amplitude := result.params.getD 3 0
      offset := result.params.getD 4 0
      fittedSpectrum := fermiEdgeModelWithTemp energy result.params
      rSquared := result.rSquared
      residuals := result.residuals }
  else
    let bounds : OptimizationBounds :=
      { lower := [-0.05, 0.0001, 0.5, -0.5], upper := [0.05, 0.05, 2, 0.5] }
    let initialParams := [0, 0.005, 1, 0]
    let result := curveFit (fermiEdgeModelFixedTemp temp) energy observedSpectrum initialParams
      bounds
      { useGlobalOpt := useGlobalOpt
        deOptions := { maxIterations := 100, populationSize := 15 } }
    { success := true
      efShift := result.params.getD 0 0
      efShiftError := result.paramErrors.getD 0 none
      sigmaTotal := result.params.getD 1 0
      sigmaTotalError := result.paramErrors.getD 1 none
      tempFit := temp
      tempError := some 0
      amplitude := result.params.getD 2 0
      offset := result.params.getD 3 0
      fittedSpectrum := fermiEdgeModelFixedTemp temp energy result.params
      rSquared := result.rSquared
      residuals := result.residuals }

/-- Per-parameter bounds for IRF estimation with the source defaults (source
`fitting.ts`, `defaultIRFBounds`). -/
structure IRFBounds where
  kappa : ℝ × ℝ := (0, 0.1)
  theta : ℝ × ℝ := (-0.5, 0.5)
  sigmaRes : ℝ × ℝ := (0.1, 10)
  alpha : ℝ × ℝ := (-0.01, 0.01)
  sigmaX : ℝ × ℝ := (0.01, 5)
  sigmaY : ℝ × ℝ := (0.01, 5)
  gammaX : ℝ × ℝ := (-5, 5)
  gammaY : ℝ × ℝ := (-10, 10)

/-- The default IRF bounds value. -/
def defaultIRFBounds : IRFBounds := {}

/-- The eight fitted physical parameters (the `parameters` field of
`IRFEstimationResult`). -/
structure IRFParameters where
  kappa : ℝ
  theta : ℝ
  sigmaRes : ℝ
  alpha : ℝ
  sigmaX : ℝ
  sigmaY : ℝ
  gammaX : ℝ
  gammaY : ℝ

/-- IRF estimation result (source `fitting.ts`, `IRFEstimationResult`). -/
structure IRFEstimationResult where
  success : Bool
  parameters : IRFParameters
  fittedSpectrum : List ℝ
  estimatedIRF : List ℝ
  finalLoss : ℝ
  iterations : ℕ
  evaluations : ℕ
  message : String

/-- The objective of `estimateIRFParameters`: one full forward simulation
per call, mean squared error of the two max-normalized spectra; the closure
increments the captured evaluation counter, threaded here as the `ℕ` state. -/
def irfObjective (entropy : ℕ → ℝ) (observedSpectrum : List ℝ) (temp : ℝ)
    (n : ℕ) (params : List ℝ) : ℝ × ℕ :=
  let simParams : SimulatorParams :=
    { kappa := params.getD 0 0, theta := params.getD 1 0, sigmaRes := params.getD 2 0
      alpha := params.getD 3 0, sigmaX := params.getD 4 0, sigmaY := params.getD 5 0
      gammaX := params.getD 6 0, gammaY := params.getD 7 0, temp := temp
      poissonNoise := some 0, gaussianNoise := some 0 }
  let result := simulate entropy simParams
  let maxSim := listMax result.spectrumClean
  let simNorm := result.spectrumClean.map (fun v => v / (maxSim + 1e-12))
  let maxObs := listMax observedSpectrum
  let obsNorm := observedSpectrum.map (fun v => v / (maxObs + 1e-12))
  let m := min simNorm.length obsNorm.length
  let mse := (((List.range m).map (fun i => (obsNorm.getD i 0 - simNorm.getD i 0) ^ 2)).sum) /
    (m : ℝ)
  (mse, n + 1)

/-- `estimateIRFParameters` (source `fitting.ts`): DE over the eight bounded
physical parameters, seed 42, population 15, forwarding the caller-supplied
iteration cap; the returned `evaluations` is the final value of the counter
captured by the objective closure. -/
def estimateIRFParameters (entropy : ℕ → ℝ) (observedSpectrum : List ℝ) (temp : ℝ)
    (bounds : IRFBounds) (maxIterations : ℕ) : IRFEstimationResult :=
  let boundsArray : OptimizationBounds :=
    { lower := [bounds.kappa.1, bounds.theta.1, bounds.sigmaRes.1, bounds.alpha.1,
        bounds.sigmaX.1, bounds.sigmaY.1, bounds.gammaX.1, bounds.gammaY.1]
      upper := [bounds.kappa.2, bounds.theta.2, bounds.sigmaRes.2, bounds.alpha.2,
        bounds.sigmaX.2, bounds.sigmaY.2, bounds.gammaX.2, bounds.gammaY.2] }
  let dr := differentialEvolution (irfObjective entropy observedSpectrum temp) 0 boundsArray
    { maxIterations := maxIterations, populationSize := 15, seed := 42 }
  let deResult := dr.1
  let optimalParams : SimulatorParams :=
    { kappa := deResult.x.getD 0 0, theta := deResult.x.getD 1 0
      sigmaRes := deResult.x.getD 2 0, alpha := deResult.x.getD 3 0
      sigmaX := deResult.x.getD 4 0, sigmaY := deResult.x.getD 5 0
      gammaX := deResult.x.getD 6 0, gammaY := deResult.x.getD 7 0, temp := temp
      poissonNoise := some 0, gaussianNoise := some 0 }
  let fittedResult := simulate entropy optimalParams
  let maxFitted := listMax fittedResult.spectrumClean
  let fittedSpectrum := fittedResult.spectrumClean.map (fun v => v / (maxFitted + 1e-12))
  { success := deResult.converged
    parameters :=
      { kappa := deResult.x.getD 0 0, theta := deResult.x.getD 1 0
        sigmaRes := deResult.x.getD 2 0, alpha := deResult.x.getD 3 0
        sigmaX := deResult.x.getD 4 0, sigmaY := deResult.x.getD 5 0
        gammaX := deResult.x.getD 6 0, gammaY := deResult.x.getD 7 0 }
    fittedSpectrum := fittedSpectrum
    estimatedIRF := fittedResult.irf
    finalLoss := deResult.fitness
    iterations := deResult.iterations
    evaluations := dr.2
    message := if deResult.converged then "Optimization converged"
      else "Maximum iterations reached" }

end

/-! Generic helper lemmas about the numeric list operations. -/

theorem le_foldl_max (l : List ℝ) (a : ℝ) : a ≤ l.foldl max a := by
  induction l generalizing a with
  | nil => exact le_rfl
  | cons x xs ih => exact le_trans (le_max_left a x) (ih (max a x))

theorem listMax_nonneg {l : List ℝ} (h : ∀ x ∈ l, 0 ≤ x) : 0 ≤ listMax l := by
  cases l with
  | nil => exact le_rfl
  | cons x xs =>
    exact le_trans (h x (List.mem_cons_self x xs)) (le_foldl_max xs x)

theorem foldl_max_div (c : ℝ) (hc : 0 < c) (l : List ℝ) :
    ∀ a : ℝ, (l.map (fun v => v / c)).foldl max (a / c) = l.foldl max a / c := by
  induction l with
  | nil => intro a; rfl
  | cons x xs ih =>
    intro a
    simp only [List.map_cons, List.foldl_cons]
    rw [max_div_div_right hc.le a x, ih (max a x)]

theorem listMax_map_div (c : ℝ) (hc : 0 < c) (l : List ℝ) :
    listMax (l.map (fun v => v / c)) = listMax l / c := by
  cases l with
  | nil => simp [listMax]
  | cons x xs => simpa [listMax] using foldl_max_div c hc xs x

theorem sum_map_div (l : List ℝ) (c : ℝ) :
    (l.map (fun v => v / c)).sum = l.sum / c := by
  induction l with
  | nil => simp
  | cons x xs ih => simp [ih, add_div]

/-! C6: `gaussianKernel` length, unit sum, symmetry, identity case. -/

/-- C6: for every `sigma` and `de` with positive half-width
`w = ⌈5σ/de⌉ > 0`, `gaussianKernel sigma de` has length `2w + 1`, sums to
exactly 1, and is symmetric around its center; for `w ≤ 0` it is the identity
kernel `[1]`. -/
theorem gaussianKernel_spec (sigma de : ℝ) :
    (0 < ⌈5 * sigma / de⌉ →
      (gaussianKernel sigma de).length = 2 * (⌈5 * sigma / de⌉).toNat + 1 ∧
      (gaussianKernel sigma de).sum = 1 ∧
      ∀ k, k ≤ 2 * (⌈5 * sigma / de⌉).toNat →
        (gaussianKernel sigma de).getD k 0 =
          (gaussianKernel sigma de).getD (2 * (⌈5 * sigma / de⌉).toNat - k) 0) ∧
    (⌈5 * sigma / de⌉ ≤ 0 → gaussianKernel sigma de = [1]) := by
  constructor
  · intro hw
    have hw2 : ¬ (⌈5 * sigma / de⌉ ≤ 0) := not_le.mpr hw
    set w : ℕ := (⌈5 * sigma / de⌉).toNat with hwdef
    have hg : gaussianKernel sigma de =
        (gkKernelRaw sigma de).map (fun v => v / (gkKernelRaw sigma de).sum) := by
      unfold gaussianKernel
      rw [if_neg hw2]
    have hraw : (gkKernelRaw sigma de).length = 2 * w + 1 := by
      unfold gkKernelRaw
      simp
    have hpos : ∀ x ∈ gkKernelRaw sigma de, 0 < x := by
      intro x hx
      unfold gkKernelRaw at hx
      obtain ⟨k, _, rfl⟩ := List.mem_map.mp hx
      exact Real.exp_pos _
    have hne : gkKernelRaw sigma de ≠ [] := by
      intro h
      have := hraw
      rw [h] at this
      simp at this
    have hsumpos : 0 < (gkKernelRaw sigma de).sum := List.sum_pos _ hpos hne
    refine ⟨?_, ?_, ?_⟩
    · rw [hg]
      simp [hraw]
    · rw [hg, sum_map_div, div_self (ne_of_gt hsumpos)]
    · intro k hk
      have hk1 : k < 2 * w + 1 := Nat.lt_succ_of_le hk
      have hk2 : 2 * w - k < 2 * w + 1 := Nat.lt_succ_of_le (Nat.sub_le _ _)
      have hget : ∀ m, m < 2 * w + 1 →
          (gkKernelRaw sigma de).getD m 0 =
            Real.exp (-(((m : ℝ) - (w : ℝ)) * de) * (((m : ℝ) - (w : ℝ)) * de) /
              (2 * sigma * sigma)) := by
        intro m hm
        unfold gkKernelRaw
        rw [List.getD_eq_getElem _ _ (by simpa using hm)]
        simp
      have hcast : ((2 * w - k : ℕ) : ℝ) = 2 * (w : ℝ) - (k : ℝ) := by
        push_cast [Nat.cast_sub hk]
        ring
      rw [hg]
      have hgetn : ∀ m, m < 2 * w + 1 →
          ((gkKernelRaw sigma de).map (fun v => v / (gkKernelRaw sigma de).sum)).getD m 0 =
            (gkKernelRaw sigma de).getD m 0 / (gkKernelRaw sigma de).sum := by
        intro m hm
        rw [List.getD_eq_getElem _ _ (by simpa [hraw] using hm),
          List.getD_eq_getElem _ _ (by simpa [hraw] using hm)]
        simp
      rw [hgetn k hk1, hgetn (2 * w - k) hk2, hget k hk1, hget (2 * w - k) hk2]
      rw [hcast]
      ring_nf
  · intro hw
    unfold gaussianKernel
    rw [if_pos hw]

/-- C6 witness: positive-width case at `σ = 1, de = 5` (half-width 1) and
identity case at `σ = -1, de = 1`. -/
theorem gaussianKernel_spec_witness :
    ((gaussianKernel 1 5).length = 2 * (⌈(5 : ℝ) * 1 / 5⌉).toNat + 1 ∧
      (gaussianKernel 1 5).sum = 1) ∧
    gaussianKernel (-1) 1 = [1] := by
  have h1 : (0 : ℤ) < ⌈(5 : ℝ) * 1 / 5⌉ := by
    have : (5 : ℝ) * 1 / 5 = 1 := by norm_num
    rw [this]
    simp
  have h2 : ⌈(5 : ℝ) * (-1) / 1⌉ ≤ 0 := by
    have h5 : (5 : ℝ) * (-1) / 1 = ((-5 : ℤ) : ℝ) := by norm_num
    rw [h5, Int.ceil_intCast]
    norm_num
  exact ⟨⟨((gaussianKernel_spec 1 5).1 h1).1, ((gaussianKernel_spec 1 5).1 h1).2.1⟩,
    (gaussianKernel_spec (-1) 1).2 h2⟩

/-! C7: properties of the `erf` approximation. -/

theorem erfPoly_nonneg (t : ℝ) (h0 : 0 ≤ t) :
    0 ≤ ((((1.061405429 * t + -1.453152027) * t + 1.421413741) * t + -0.284496736) * t
        + 0.254829592) * t := by
  have hq : (0:ℝ) ≤ (((1.061405429 * t + -1.453152027) * t + 1.421413741) * t
      + -0.284496736) * t + 0.254829592 := by
    nlinarith [sq_nonneg (2.122810858 * t ^ 2 - 1.453152027 * t),
      sq_nonneg (7.846264 * t - 1.207864), sq_nonneg t, sq_nonneg (t - 1)]
  exact mul_nonneg hq h0

theorem erfPoly_le_two (t : ℝ) (h0 : 0 ≤ t) (h1 : t ≤ 1) :
    ((((1.061405429 * t + -1.453152027) * t + 1.421413741) * t + -0.284496736) * t
        + 0.254829592) * t ≤ 2 := by
  nlinarith [mul_nonneg h0 h0, mul_nonneg (mul_nonneg h0 h0) h0,
    mul_nonneg (mul_nonneg (mul_nonneg h0 h0) h0) h0,
    mul_nonneg (mul_nonneg (mul_nonneg (mul_nonneg h0 h0) h0) h0) h0,
    mul_nonneg (mul_nonneg (mul_nonneg h0 h0) h0) (sub_nonneg.mpr h1),
    mul_nonneg (mul_nonneg (mul_nonneg (mul_nonneg h0 h0) h0) h0) (sub_nonneg.mpr h1)]

theorem erfBody_abs_le_one (t E : ℝ) (ht0 : 0 ≤ t) (ht1 : t ≤ 1) (hE0 : 0 < E) (hE1 : E ≤ 1) :
    |1 - ((((1.061405429 * t + -1.453152027) * t + 1.421413741) * t + -0.284496736) * t
        + 0.254829592) * t * E| ≤ 1 := by
  have hP0 := erfPoly_nonneg t ht0
  have hP2 := erfPoly_le_two t ht0 ht1
  have h1 : 0 ≤ ((((1.061405429 * t + -1.453152027) * t + 1.421413741) * t + -0.284496736) * t
      + 0.254829592) * t * E := mul_nonneg hP0 hE0.le
  have h2 : ((((1.061405429 * t + -1.453152027) * t + 1.421413741) * t + -0.284496736) * t
      + 0.254829592) * t * E ≤ 2 := le_trans (mul_le_of_le_one_right hP0 hE1) hP2
  rw [abs_le]
  constructor <;> linarith

theorem erf_t_bounds (z : ℝ) (hz : 0 ≤ z) :
    0 ≤ 1 / (1 + 0.3275911 * z) ∧ 1 / (1 + 0.3275911 * z) ≤ 1 := by
  have hden : (1:ℝ) ≤ 1 + 0.3275911 * z := by nlinarith
  constructor
  · positivity
  · rw [div_le_one (by linarith)]
    linarith

theorem erf_exp_bounds (z : ℝ) :
    0 < Real.exp (-z * z) ∧ Real.exp (-z * z) ≤ 1 := by
  refine ⟨Real.exp_pos _, ?_⟩
  rw [show (1:ℝ) = Real.exp 0 from Real.exp_zero.symm]
  exact Real.exp_le_exp.mpr (by nlinarith [mul_self_nonneg z])

/-- C7 counterexample: over exact real arithmetic the Abramowitz–Stegun
coefficients sum to `0.999999999`, so `erf 0 = 1e-9`, not `0`. -/
theorem erf_zero_counterexample : erf 0 ≠ 0 := by
  have h : erf 0 = 1e-9 := by
    unfold erf
    norm_num
  rw [h]
  norm_num

/-- C7 amended: `erf 0` equals `1e-9` rather than `0` (the residual of the
coefficient sum); antisymmetry `erf (−x) = −erf x` holds for all `x ≠ 0`
(at `x = 0` it would force `erf 0 = 0`); and `|erf x| ≤ 1` for every `x`. -/
theorem erf_amended :
    erf 0 = 1e-9 ∧ (∀ x : ℝ, x ≠ 0 → erf (-x) = -erf x) ∧ (∀ x : ℝ, |erf x| ≤ 1) := by
  refine ⟨by unfold erf; norm_num, ?_, ?_⟩
  · intro x hx
    unfold erf
    rcases lt_trichotomy x 0 with h | h | h
    · rw [if_pos h, if_neg (not_lt.mpr (by linarith : (0:ℝ) ≤ -x)), abs_neg]
      ring
    · exact absurd h hx
    · rw [if_neg (not_lt.mpr h.le), if_pos (by linarith : -x < 0), abs_neg]
      ring
  · intro x
    unfold erf
    have ht := erf_t_bounds |x| (abs_nonneg x)
    have hE := erf_exp_bounds |x|
    have hbody := erfBody_abs_le_one (1 / (1 + 0.3275911 * |x|)) (Real.exp (-|x| * |x|))
      ht.1 ht.2 hE.1 hE.2
    split_ifs with h
    · rw [neg_one_mul, abs_neg]
      exact hbody
    · rw [one_mul]
      exact hbody

/-- C7 witness: the antisymmetry identity applied at `x = 1`. -/
theorem erf_amended_witness : erf (-1) = -erf 1 :=
  erf_amended.2.1 1 (by norm_num)

/-! C2: properties of the Fermi–Dirac implementation. -/

/-- C2 counterexample: at `T = 0.05 > 0` the implementation takes the step
branch and returns `0` (violating `0 < f`), and at `T = 0.1` the `±100`
clamp saturates for both `e = 0.001` and `e = 0.002`, so the function is not
strictly decreasing there. -/
theorem fermiDirac_counterexample :
    ((0:ℝ) < 0.05 ∧ fermiDirac [1] 0.05 0 = [0]) ∧
    ((0.001:ℝ) < 0.002 ∧ fermiDirac [0.001] 0.1 0 = fermiDirac [0.002] 0.1 0) := by
  refine ⟨⟨by norm_num, ?_⟩, by norm_num, ?_⟩
  · unfold fermiDirac
    norm_num
  · unfold fermiDirac
    rw [if_neg (by norm_num), if_neg (by norm_num)]
    simp only [List.map_cons, List.map_nil, sub_zero]
    have h1 : min (100:ℝ) (0.001 / (KB * 0.1)) = 100 := by
      rw [min_eq_left]
      rw [le_div_iff₀ (by norm_num [KB])]
      norm_num [KB]
    have h2 : min (100:ℝ) (0.002 / (KB * 0.1)) = 100 := by
      rw [min_eq_left]
      rw [le_div_iff₀ (by norm_num [KB])]
      norm_num [KB]
    rw [h1, h2]

/-- C2 amended: the pointwise Fermi–Dirac value agrees with the list-level
source function; for `T ≥ 0.1` (the smooth branch) it lies strictly between
0 and 1 and is antitone in `e`, strictly decreasing on the region where the
`±100` clamp is not saturated; for `0 < T < 0.1` the implementation is the
0/1 step, so `0 < f < 1` and strict monotonicity fail. -/
theorem fermiDirac_amended :
    (∀ (es : List ℝ) (t ef : ℝ), fermiDirac es t ef = es.map (fun e => fdPoint e t ef)) ∧
    (∀ T e : ℝ, 0.1 ≤ T → 0 < fdPoint e T 0 ∧ fdPoint e T 0 < 1) ∧
    (∀ T e1 e2 : ℝ, 0.1 ≤ T → e1 ≤ e2 → fdPoint e2 T 0 ≤ fdPoint e1 T 0) ∧
    (∀ T e1 e2 : ℝ, 0.1 ≤ T → e1 < e2 → -(100 * (KB * T)) ≤ e1 → e2 ≤ 100 * (KB * T) →
      fdPoint e2 T 0 < fdPoint e1 T 0) := by
  have hKB : (0:ℝ) < KB := by norm_num [KB]
  refine ⟨?_, ?_, ?_, ?_⟩
  · intro es t ef
    unfold fermiDirac fdPoint
    split_ifs with h <;> simp [h]
  · intro T e hT
    have hT2 : ¬ (T < 0.1) := not_lt.mpr hT
    unfold fdPoint
    rw [if_neg hT2]
    have hx := Real.exp_pos (max (-100) (min 100 ((e - 0) / (KB * T))))
    constructor
    · positivity
    · rw [div_lt_one (by linarith)]
      linarith
  · intro T e1 e2 hT he
    have hT2 : ¬ (T < 0.1) := not_lt.mpr hT
    have hKT : 0 < KB * T := by positivity
    unfold fdPoint
    rw [if_neg hT2, if_neg hT2]
    have hdiv : (e1 - 0) / (KB * T) ≤ (e2 - 0) / (KB * T) := by
      rw [div_le_div_iff hKT hKT]
      nlinarith
    have hclamp : max (-100) (min 100 ((e1 - 0) / (KB * T))) ≤
        max (-100) (min 100 ((e2 - 0) / (KB * T))) :=
      max_le_max le_rfl (min_le_min le_rfl hdiv)
    have hexp := Real.exp_le_exp.mpr hclamp
    have h1 := Real.exp_pos (max (-100) (min 100 ((e1 - 0) / (KB * T))))
    have h2 := Real.exp_pos (max (-100) (min 100 ((e2 - 0) / (KB * T))))
    apply one_div_le_one_div_of_le (by linarith)
    linarith
  · intro T e1 e2 hT he hlo hhi
    have hT2 : ¬ (T < 0.1) := not_lt.mpr hT
    have hKT : 0 < KB * T := by positivity
    unfold fdPoint
    rw [if_neg hT2, if_neg hT2]
    have hd1hi : (e1 - 0) / (KB * T) ≤ 100 := by
      rw [div_le_iff₀ hKT]
      nlinarith
    have hd2hi : (e2 - 0) / (KB * T) ≤ 100 := by
      rw [div_le_iff₀ hKT]
      nlinarith
    have hd1lo : (-100 : ℝ) ≤ (e1 - 0) / (KB * T) := by
      rw [le_div_iff₀ hKT]
      nlinarith
    have hd2lo : (-100 : ℝ) ≤ (e2 - 0) / (KB * T) := by
      rw [le_div_iff₀ hKT]
      nlinarith
    rw [min_eq_right hd1hi, min_eq_right hd2hi, max_eq_right hd1lo, max_eq_right hd2lo]
    have hdiv : (e1 - 0) / (KB * T) < (e2 - 0) / (KB * T) := by
      rw [div_lt_div_iff hKT hKT]
      nlinarith
    have hexp := Real.exp_lt_exp.mpr hdiv
    have h1 := Real.exp_pos ((e1 - 0) / (KB * T))
    have h2 := Real.exp_pos ((e2 - 0) / (KB * T))
    apply one_div_lt_one_div_of_lt (by linarith) (by linarith)

/-- C2 witness: bounds at `(T, e) = (1, 0)`, antitonicity at `e = 0 ≤ 1`,
strictness at `e1 = 0 < e2 = KB` (inside the unclamped region). -/
theorem fermiDirac_amended_witness :
    (0 < fdPoint 0 1 0 ∧ fdPoint 0 1 0 < 1) ∧
    fdPoint 1 1 0 ≤ fdPoint 0 1 0 ∧
    fdPoint KB 1 0 < fdPoint 0 1 0 :=
  ⟨fermiDirac_amended.2.1 1 0 (by norm_num),
   fermiDirac_amended.2.2.1 1 0 1 (by norm_num) (by norm_num),
   fermiDirac_amended.2.2.2 1 0 KB (by norm_num) (by norm_num [KB]) (by norm_num [KB])
     (by norm_num [KB])⟩

/-! C1: normalization and sign of the extracted IRF. -/

set_option maxRecDepth 100000 in
theorem simulate_irf_eq (entropy : ℕ → ℝ) (p : SimulatorParams) :
    (simulate entropy p).irf = (irfRawOf p).map
      (fun v => -v / (listMax ((irfRawOf p).map (fun u => |u|)) + 1e-12)) := rfl

theorem irfMax_nonneg (p : SimulatorParams) :
    0 ≤ listMax ((irfRawOf p).map (fun v => |v|)) := by
  apply listMax_nonneg
  intro x hx
  obtain ⟨y, _, rfl⟩ := List.mem_map.mp hx
  exact abs_nonneg y

theorem irf_maxAbs_eq (entropy : ℕ → ℝ) (p : SimulatorParams) :
    listMax (((simulate entropy p).irf).map (fun v => |v|)) =
      listMax ((irfRawOf p).map (fun v => |v|)) /
        (listMax ((irfRawOf p).map (fun v => |v|)) + 1e-12) := by
  have hm0 := irfMax_nonneg p
  have heps : (0:ℝ) < 1e-12 := by norm_num
  have hc : 0 < listMax ((irfRawOf p).map (fun v => |v|)) + 1e-12 := by linarith
  rw [simulate_irf_eq, List.map_map]
  have hfun : ((fun v : ℝ => |v|) ∘
      (fun v : ℝ => -v / (listMax ((irfRawOf p).map (fun u => |u|)) + 1e-12))) =
      (fun v : ℝ => |v| / (listMax ((irfRawOf p).map (fun u => |u|)) + 1e-12)) := by
    funext v
    simp [Function.comp, abs_div, abs_of_pos hc]
  rw [hfun]
  have hsplit : (irfRawOf p).map
      (fun v : ℝ => |v| / (listMax ((irfRawOf p).map (fun u => |u|)) + 1e-12)) =
      ((irfRawOf p).map (fun v : ℝ => |v|)).map
        (fun v : ℝ => v / (listMax ((irfRawOf p).map (fun u => |u|)) + 1e-12)) := by
    rw [List.map_map]
    rfl
  rw [hsplit, listMax_map_div _ hc]

theorem irf_maxAbs_lt_one (entropy : ℕ → ℝ) (p : SimulatorParams) :
    listMax (((simulate entropy p).irf).map (fun v => |v|)) < 1 := by
  have hm0 := irfMax_nonneg p
  have heps : (0:ℝ) < 1e-12 := by norm_num
  have hc : 0 < listMax ((irfRawOf p).map (fun v => |v|)) + 1e-12 := by linarith
  rw [irf_maxAbs_eq, div_lt_one hc]
  linarith

/-- C1 counterexample: at the default parameters (and any entropy stream)
the maximum of `|irf|` is `m/(m + 1e-12) < 1`, never exactly `1`, because
the normalizer adds `1e-12` to the maximum `m` of `|irfRaw|`. -/
theorem simulate_irf_max_ne_one :
    listMax (((simulate (fun _ => 0) defaultParams).irf).map (fun v => |v|)) ≠ 1 :=
  ne_of_lt (irf_maxAbs_lt_one (fun _ => 0) defaultParams)

/-- C1 amended: for every input, `irf` equals the negated numerical gradient
of the low-temperature step spectrum divided entry-wise by `m + 1e-12`
(where `m = max|gradient|`, so the claimed sign flip holds), and the maximum
of `|irf|` equals `m/(m + 1e-12)`, which is strictly below 1 in exact
arithmetic rather than exactly 1. -/
theorem simulate_irf_normalization (entropy : ℕ → ℝ) (p : SimulatorParams) :
    (simulate entropy p).irf = (irfRawOf p).map
      (fun v => -v / (listMax ((irfRawOf p).map (fun u => |u|)) + 1e-12)) ∧
    listMax (((simulate entropy p).irf).map (fun v => |v|)) =
      listMax ((irfRawOf p).map (fun v => |v|)) /
        (listMax ((irfRawOf p).map (fun v => |v|)) + 1e-12) ∧
    listMax (((simulate entropy p).irf).map (fun v => |v|)) < 1 :=
  ⟨simulate_irf_eq entropy p, irf_maxAbs_eq entropy p, irf_maxAbs_lt_one entropy p⟩

/-! C9: the noise parameters influence only the `spectrum` field. -/

/-- C9: two parameter sets that agree on everything except the two noise
levels produce identical `SimulationResult`s in every field other than
`spectrum` (the noise-free outputs do not depend on the noise settings). -/
theorem simulate_noise_noninterference (entropy : ℕ → ℝ) (p1 p2 : SimulatorParams)
    (h1 : p1.sigmaX = p2.sigmaX) (h2 : p1.sigmaY = p2.sigmaY) (h3 : p1.alpha = p2.alpha)
    (h4 : p1.gammaX = p2.gammaX) (h5 : p1.gammaY = p2.gammaY) (h6 : p1.kappa = p2.kappa)
    (h7 : p1.theta = p2.theta) (h8 : p1.sigmaRes = p2.sigmaRes) (h9 : p1.temp = p2.temp) :
    (simulate entropy p1).energy = (simulate entropy p2).energy ∧
    (simulate entropy p1).spectrumClean = (simulate entropy p2).spectrumClean ∧
    (simulate entropy p1).idealFD = (simulate entropy p2).idealFD ∧
    (simulate entropy p1).irf = (simulate entropy p2).irf ∧
    (simulate entropy p1).image2D = (simulate entropy p2).image2D ∧
    (simulate entropy p1).spotProfile = (simulate entropy p2).spotProfile ∧
    (simulate entropy p1).yAxis = (simulate entropy p2).yAxis ∧
    (simulate entropy p1).sigmaSource = (simulate entropy p2).sigmaSource ∧
    (simulate entropy p1).sigmaDetector = (simulate entropy p2).sigmaDetector ∧
    (simulate entropy p1).sigmaCombined = (simulate entropy p2).sigmaCombined := by
  obtain ⟨a1, a2, a3, a4, a5, a6, a7, a8, a9, n1, g1⟩ := p1
  obtain ⟨b1, b2, b3, b4, b5, b6, b7, b8, b9, n2, g2⟩ := p2
  dsimp only at h1 h2 h3 h4 h5 h6 h7 h8 h9
  subst h1 h2 h3 h4 h5 h6 h7 h8 h9
  exact ⟨rfl, rfl, rfl, rfl, rfl, rfl, rfl, rfl, rfl, rfl⟩

/-- C9 witness: the default parameters versus the same parameters with the
noise fields replaced; the noise-free `spectrumClean` output coincides. -/
theorem simulate_noise_noninterference_witness :
    (simulate (fun _ => 0) defaultParams).spectrumClean =
      (simulate (fun _ => 0)
        { defaultParams with poissonNoise := some 0, gaussianNoise := none }).spectrumClean :=
  (simulate_noise_noninterference (fun _ => 0) defaultParams
    { defaultParams with poissonNoise := some 0, gaussianNoise := none }
    rfl rfl rfl rfl rfl rfl rfl rfl rfl).2.1

/-! C5: the DE binomial crossover. -/

theorem mulberryOut_lt (s : ℕ) : mulberryOut s < 4294967296 := by
  unfold mulberryOut
  exact Nat.mod_lt _ (by norm_num)

theorem draw_val_bounds (s : ℕ) : 0 ≤ (draw s).1 ∧ (draw s).1 < 1 := by
  unfold draw
  constructor
  · positivity
  · rw [div_lt_one (by norm_num)]
    have h := mulberryOut_lt (mulberryStep s)
    calc ((mulberryOut (mulberryStep s) : ℕ) : ℝ) < ((4294967296 : ℕ) : ℝ) := by
          exact_mod_cast h
      _ = 4294967296 := by norm_num

theorem crossoverTrial_getD (CR : ℝ) (dim : ℕ) (donor : List ℝ) :
    ∀ (target : List ℝ) (j0 s j : ℕ), j < target.length →
      ((crossoverTrial CR dim donor target j0 s).1.getD j 0 = donor.getD (j0 + j) 0 ∨
        (crossoverTrial CR dim donor target j0 s).1.getD j 0 = target.getD j 0) := by
  intro target
  induction target with
  | nil =>
    intro j0 s j hj
    simp at hj
  | cons val rest ih =>
    intro j0 s j hj
    by_cases hd : (draw s).1 < CR
    · simp only [crossoverTrial, if_pos hd]
      cases j with
      | zero => left; simp
      | succ jj =>
        have := ih (j0 + 1) (draw s).2 jj (by simpa using hj)
        rcases this with h | h
        · left
          simpa [Nat.add_assoc, Nat.add_comm 1 jj] using h
        · right
          simpa using h
    · simp only [crossoverTrial, if_neg hd]
      cases j with
      | zero =>
        by_cases hp : (j0 : ℤ) = ⌊(draw (draw s).2).1 * (dim : ℝ)⌋
        · left; simp [hp]
        · right; simp [hp]
      | succ jj =>
        have := ih (j0 + 1) (draw (draw s).2).2 jj (by simpa using hj)
        rcases this with h | h
        · left
          simpa [Nat.add_assoc, Nat.add_comm 1 jj] using h
        · right
          simpa using h

/-- C5 counterexample: with `CR = 0.7`, one dimension, target `[0]` and donor
`[1]`, the crossover takes the donor component for every draw (either the
first uniform is below `CR`, or the freshly drawn `⌊U·1⌋ = 0` equals `j`), so
the trial vector inherits no component from the target. -/
theorem crossoverTrial_counterexample :
    ¬ ∃ j, j < ([(0:ℝ)] : List ℝ).length ∧
      (crossoverTrial 0.7 1 [1] [0] 0 42).1.getD j 0 = ([(0:ℝ)] : List ℝ).getD j 0 := by
  have heq : (crossoverTrial 0.7 1 [(1:ℝ)] [0] 0 42).1 = [1] := by
    by_cases hd : (draw 42).1 < 0.7
    · simp only [crossoverTrial, if_pos hd]
      simp
    · simp only [crossoverTrial, if_neg hd]
      have hb := draw_val_bounds (draw 42).2
      have hfl : ⌊(draw (draw 42).2).1 * ((1:ℕ) : ℝ)⌋ = 0 := by
        rw [Nat.cast_one, mul_one]
        exact Int.floor_eq_zero_iff.mpr ⟨hb.1, hb.2⟩
      rw [if_pos (by rw [hfl]; simp)]
      simp
  rintro ⟨j, hj, hval⟩
  simp only [List.length_singleton] at hj
  interval_cases j
  rw [heq] at hval
  norm_num at hval

/-- C5 amended: every component of the crossover trial vector is either the
corresponding donor component or the corresponding target component (the
per-dimension `j = ⌊U·dim⌋` rule does not guarantee that any component is
inherited from the target, as the counterexample shows). -/
theorem crossoverTrial_amended (CR : ℝ) (dim : ℕ) (donor target : List ℝ) (s j : ℕ)
    (hj : j < target.length) :
    (crossoverTrial CR dim donor target 0 s).1.getD j 0 = donor.getD j 0 ∨
    (crossoverTrial CR dim donor target 0 s).1.getD j 0 = target.getD j 0 := by
  have := crossoverTrial_getD CR dim donor target 0 s j hj
  simpa using this

/-- C5 witness: the amended component property at a concrete crossover. -/
theorem crossoverTrial_amended_witness :
    (crossoverTrial 0.7 2 [1, 2] [3, 4] 0 7).1.getD 1 0 = ([1, 2] : List ℝ).getD 1 0 ∨
    (crossoverTrial 0.7 2 [1, 2] [3, 4] 0 7).1.getD 1 0 = ([3, 4] : List ℝ).getD 1 0 :=
  crossoverTrial_amended 0.7 2 [1, 2] [3, 4] 7 1 (by norm_num)

/-! C3: determinism of `differentialEvolution` and its seeded generator. -/

/-- C3: any two runs of `differentialEvolution` on the same objective,
bounds and options (hence the same seed) produce the same `DEResult`, and
any two Mulberry32 output streams generated from the same seed agree
everywhere. -/
theorem de_prng_deterministic :
    (∀ (σ : Type) (obj : σ → List ℝ → ℝ × σ) (os0 : σ) (bounds : OptimizationBounds)
        (opts : DEOptions) (r1 r2 : DEResult),
      IsDERun obj os0 bounds opts r1 → IsDERun obj os0 bounds opts r2 → r1 = r2) ∧
    (∀ (seed : ℕ) (v1 v2 : ℕ → ℕ),
      IsMulberryStream seed v1 → IsMulberryStream seed v2 → ∀ n, v1 n = v2 n) := by
  constructor
  · rintro σ obj os0 bounds opts r1 r2
      ⟨t1, ht10, ht1s, n1, hstop1, hmin1, hr1⟩ ⟨t2, ht20, ht2s, n2, hstop2, hmin2, hr2⟩
    have htr : ∀ k, t1 k = t2 k := by
      intro k
      induction k with
      | zero => rw [ht10, ht20]
      | succ k ih => rw [ht1s, ht2s, ih]
    have hn : n1 = n2 := by
      rcases lt_trichotomy n1 n2 with h | h | h
      · have hf := hmin2 n1 h
        rw [← htr n1, hstop1] at hf
        exact absurd hf (by simp)
      · exact h
      · have hf := hmin1 n2 h
        rw [htr n2, hstop2] at hf
        exact absurd hf (by simp)
    rw [hr1, hr2, hn, htr n2]
  · rintro seed v1 v2 ⟨s1, hs10, hs1s, hv1⟩ ⟨s2, hs20, hs2s, hv2⟩ n
    have hs : ∀ k, s1 k = s2 k := by
      intro k
      induction k with
      | zero => rw [hs10, hs20]
      | succ k ih => rw [hs1s, hs2s, ih]
    rw [hv1, hv2, hs (n + 1)]

/-- C3 witness: both determinism statements applied to two explicitly
constructed runs (a DE run with `maxIterations = 0` on a constant objective,
and the canonical Mulberry32 stream from seed 42). -/
theorem de_prng_deterministic_witness :
    deExtract (deInit (fun (u : Unit) (_ : List ℝ) => ((0:ℝ), u)) ()
        [(0:ℝ)] [(0:ℝ)] { maxIterations := 0 }) =
      deExtract (deInit (fun (u : Unit) (_ : List ℝ) => ((0:ℝ), u)) ()
        [(0:ℝ)] [(0:ℝ)] { maxIterations := 0 }) ∧
    mulberryOut (mulberryStep 42) = mulberryOut (mulberryStep 42) := by
  have hrun : IsDERun (fun (u : Unit) (_ : List ℝ) => ((0:ℝ), u)) ()
      ⟨[(0:ℝ)], [(0:ℝ)]⟩ { maxIterations := 0 }
      (deExtract (deInit (fun (u : Unit) (_ : List ℝ) => ((0:ℝ), u)) ()
        [(0:ℝ)] [(0:ℝ)] { maxIterations := 0 })) := by
    refine ⟨fun k => (deStep (fun (u : Unit) (_ : List ℝ) => ((0:ℝ), u))
      [(0:ℝ)] [(0:ℝ)] { maxIterations := 0 } 1)^[k]
        (deInit (fun (u : Unit) (_ : List ℝ) => ((0:ℝ), u)) ()
          [(0:ℝ)] [(0:ℝ)] { maxIterations := 0 }), ?_, ?_, 0, ?_, ?_, ?_⟩
    · rfl
    · intro k
      simp only [Function.iterate_succ_apply']
      rfl
    · simp [deStop]
    · intro m hm
      exact absurd hm (Nat.not_lt_zero m)
    · rfl
  have hstream : IsMulberryStream 42 (fun n => mulberryOut ((mulberryStep)^[n + 1] 42)) := by
    refine ⟨fun n => (mulberryStep)^[n] 42, rfl, ?_, fun n => rfl⟩
    intro n
    simp only [Function.iterate_succ_apply']
  exact ⟨de_prng_deterministic.1 Unit _ _ ⟨[(0:ℝ)], [(0:ℝ)]⟩ { maxIterations := 0 } _ _ hrun hrun,
    de_prng_deterministic.2 42 _ _ hstream hstream 0⟩

/-! C10: the objective-evaluation count of the IRF estimation. -/

theorem initPop_count (obj : ℕ → List ℝ → ℝ × ℕ) (hobj : ∀ n x, (obj n x).2 = n + 1)
    (lower upper : List ℝ) :
    ∀ (n s os : ℕ), (initPop obj lower upper n s os).2.2.2 = os + n := by
  intro n
  induction n with
  | zero => intro s os; simp [initPop]
  | succ k ih =>
    intro s os
    simp only [initPop]
    rw [ih, hobj]
    omega

theorem deInner_objState (obj : ℕ → List ℝ → ℝ × ℕ) (hobj : ∀ n x, (obj n x).2 = n + 1)
    (lower upper : List ℝ) (F CR : ℝ) (popSize dim : ℕ) :
    ∀ (l : List ℕ) (st : DEState ℕ),
      (deInner obj lower upper F CR popSize dim l st).objState = st.objState + l.length := by
  intro l
  induction l with
  | nil => intro st; simp [deInner]
  | cons i rest ih =>
    intro st
    simp only [deInner]
    rw [ih]
    split_ifs <;> simp [hobj] <;> omega

theorem deInner_iteration (obj : ℕ → List ℝ → ℝ × ℕ) (lower upper : List ℝ) (F CR : ℝ)
    (popSize dim : ℕ) :
    ∀ (l : List ℕ) (st : DEState ℕ),
      (deInner obj lower upper F CR popSize dim l st).iteration = st.iteration := by
  intro l
  induction l with
  | nil => intro st; simp [deInner]
  | cons i rest ih =>
    intro st
    simp only [deInner]
    rw [ih]
    split_ifs <;> simp

theorem deStep_objState (obj : ℕ → List ℝ → ℝ × ℕ) (hobj : ∀ n x, (obj n x).2 = n + 1)
    (lower upper : List ℝ) (opts : DEOptions) (dim : ℕ) (st : DEState ℕ) :
    (deStep obj lower upper opts dim st).objState = st.objState + opts.populationSize := by
  simp only [deStep]
  split_ifs <;>
    simp [deInner_objState obj hobj lower upper opts.mutationFactor opts.crossoverRate
      opts.populationSize dim]

theorem deStep_iteration (obj : ℕ → List ℝ → ℝ × ℕ) (lower upper : List ℝ) (opts : DEOptions)
    (dim : ℕ) (st : DEState ℕ) :
    (deStep obj lower upper opts dim st).iteration = st.iteration + 1 := by
  simp only [deStep]
  split_ifs <;>
    simp [deInner_iteration obj lower upper opts.mutationFactor opts.crossoverRate
      opts.populationSize dim]

theorem deLoop_objState (obj : ℕ → List ℝ → ℝ × ℕ) (hobj : ∀ n x, (obj n x).2 = n + 1)
    (lower upper : List ℝ) (opts : DEOptions) (dim : ℕ) :
    ∀ (fuel : ℕ) (st : DEState ℕ),
      st.objState = opts.populationSize * (st.iteration + 1) →
      (deLoop obj lower upper opts dim fuel st).objState =
        opts.populationSize * ((deLoop obj lower upper opts dim fuel st).iteration + 1) := by
  intro fuel
  induction fuel with
  | zero => intro st h; simpa [deLoop] using h
  | succ k ih =>
    intro st h
    simp only [deLoop]
    split_ifs with hstop
    · exact h
    · apply ih
      rw [deStep_objState obj hobj lower upper opts dim st,
        deStep_iteration obj lower upper opts dim st, h]
      ring

theorem differentialEvolution_count (obj : ℕ → List ℝ → ℝ × ℕ)
    (hobj : ∀ n x, (obj n x).2 = n + 1) (bounds : OptimizationBounds) (opts : DEOptions) :
    (differentialEvolution obj 0 bounds opts).2 =
      opts.populationSize * ((differentialEvolution obj 0 bounds opts).1.iterations + 1) := by
  unfold differentialEvolution
  simp only [deExtract]
  apply deLoop_objState obj hobj bounds.lower bounds.upper opts bounds.lower.length
    opts.maxIterations
  simp [deInit, initPop_count obj hobj]

set_option maxRecDepth 100000 in
/-- C10: the `evaluations` field of `estimateIRFParameters` always equals
`populationSize · (iterations + 1) = 15 · (iterations + 1)`: the objective
(one forward simulation) is evaluated once per initial population member and
once per trial vector of each completed DE iteration. -/
theorem estimateIRFParameters_evaluations (entropy : ℕ → ℝ) (observedSpectrum : List ℝ)
    (temp : ℝ) (bounds : IRFBounds) (maxIterations : ℕ) :
    (estimateIRFParameters entropy observedSpectrum temp bounds maxIterations).evaluations =
      15 * ((estimateIRFParameters entropy observedSpectrum temp bounds
        maxIterations).iterations + 1) := by
  have hobj : ∀ (n : ℕ) (x : List ℝ),
      (irfObjective entropy observedSpectrum temp n x).2 = n + 1 := fun n x => rfl
  exact differentialEvolution_count (irfObjective entropy observedSpectrum temp) hobj
    { lower := [bounds.kappa.1, bounds.theta.1, bounds.sigmaRes.1, bounds.alpha.1,
        bounds.sigmaX.1, bounds.sigmaY.1, bounds.gammaX.1, bounds.gammaY.1]
      upper := [bounds.kappa.2, bounds.theta.2, bounds.sigmaRes.2, bounds.alpha.2,
        bounds.sigmaX.2, bounds.sigmaY.2, bounds.gammaX.2, bounds.gammaY.2] }
    { maxIterations := maxIterations, populationSize := 15, seed := 42 }

/-! C4: the fitters never report an input-validation failure. -/

set_option maxRecDepth 100000 in
/-- C4 (code evaluated at the failing input, and in general): `fitFermiEdge`
returns `success = true` for the empty invalid input — and for every input —
because the source has no input validation and `success = false` is produced
only by a `catch` arm that no reachable operation triggers.  (Likewise
`estimateIRFParameters` has no validation path; its `message` is drawn from
the two fixed convergence strings.) -/
theorem fitFermiEdge_success_true :
    (fitFermiEdge [] [] 5 true true).success = true ∧
    ∀ (energy observedSpectrum : List ℝ) (temp : ℝ) (fitTemp useGlobalOpt : Bool),
      (fitFermiEdge energy observedSpectrum temp fitTemp useGlobalOpt).success = true := by
  refine ⟨rfl, ?_⟩
  intro energy observedSpectrum temp fitTemp useGlobalOpt
  cases fitTemp <;> rfl


/-! C8: `curveFit` bound projection and `paramErrors` sanitization. -/

theorem clampedIndex_bounds (lower upper xs : List ℝ)
    (hb : ∀ i, lower.getD i 0 ≤ upper.getD i 0) (i : ℕ)
    (hi : i < ((List.range xs.length).map
      (fun k => max (lower.getD k 0) (min (upper.getD k 0) (xs.getD k 0)))).length) :
    lower.getD i 0 ≤ ((List.range xs.length).map
      (fun k => max (lower.getD k 0) (min (upper.getD k 0) (xs.getD k 0)))).getD i 0 ∧
    ((List.range xs.length).map
      (fun k => max (lower.getD k 0) (min (upper.getD k 0) (xs.getD k 0)))).getD i 0 ≤
      upper.getD i 0 := by
  rw [List.getD_eq_getElem _ _ hi]
  simp only [List.getElem_map, List.getElem_range]
  exact ⟨le_max_left _ _, max_le (hb i) (min_le_left _ _)⟩

theorem paramErrorsIndex_shape (cov : List (List ℝ)) (fp : List ℝ) (i : ℕ)
    (hi : i < ((List.range cov.length).map (fun k =>
      let err := Real.sqrt |(cov.getD k []).getD k 0|
      let paramValue := |fp.getD k 0| + 1e-10
      if err > 1e6 ∨ err > paramValue * 100 then none else some err)).length) :
    ((List.range cov.length).map (fun k =>
      let err := Real.sqrt |(cov.getD k []).getD k 0|
      let paramValue := |fp.getD k 0| + 1e-10
      if err > 1e6 ∨ err > paramValue * 100 then none else some err)).getD i none = none ∨
    ∃ e, ((List.range cov.length).map (fun k =>
      let err := Real.sqrt |(cov.getD k []).getD k 0|
      let paramValue := |fp.getD k 0| + 1e-10
      if err > 1e6 ∨ err > paramValue * 100 then none else some err)).getD i none = some e ∧
      0 ≤ e ∧ e = Real.sqrt |(cov.getD i []).getD i 0| ∧ e ≤ 1e6 ∧
      e ≤ (|fp.getD i 0| + 1e-10) * 100 := by
  rw [List.getD_eq_getElem _ _ hi]
  simp only [List.getElem_map, List.getElem_range]
  by_cases h : Real.sqrt |(cov.getD i []).getD i 0| > 1e6 ∨
      Real.sqrt |(cov.getD i []).getD i 0| > (|fp.getD i 0| + 1e-10) * 100
  · left
    simp only [if_pos h]
  · right
    rw [if_neg h]
    push_neg at h
    exact ⟨Real.sqrt |(cov.getD i []).getD i 0|, rfl, Real.sqrt_nonneg _, rfl, h.1, h.2⟩

set_option maxRecDepth 100000 in
/-- C8 amended: with elementwise ordered bounds, every final parameter of
`curveFit` lies inside its bound interval, and every `paramErrors` entry is
either the not-a-number marker or the nonnegative (possibly zero, hence not
always strictly positive) value `√|cov[i][i]|` obeying both sanitization
bounds. -/
theorem curveFit_amended (model : List ℝ → List ℝ → List ℝ)
    (xData yData initialParams : List ℝ) (bounds : OptimizationBounds)
    (options : CurveFitOptions)
    (hb : ∀ i, bounds.lower.getD i 0 ≤ bounds.upper.getD i 0) :
    (∀ i, i < (curveFit model xData yData initialParams bounds options).params.length →
      bounds.lower.getD i 0 ≤
        (curveFit model xData yData initialParams bounds options).params.getD i 0 ∧
      (curveFit model xData yData initialParams bounds options).params.getD i 0 ≤
        bounds.upper.getD i 0) ∧
    (∀ i, i < (curveFit model xData yData initialParams bounds options).paramErrors.length →
      (curveFit model xData yData initialParams bounds options).paramErrors.getD i none =
        none ∨
      ∃ e, (curveFit model xData yData initialParams bounds options).paramErrors.getD i none =
          some e ∧ 0 ≤ e ∧
        e = Real.sqrt
          |((curveFit model xData yData initialParams bounds options).covariance.getD i
            []).getD i 0| ∧
        e ≤ 1e6 ∧
        e ≤ (|(curveFit model xData yData initialParams bounds options).params.getD i 0| +
          1e-10) * 100) := by
  constructor
  · intro i hi
    exact clampedIndex_bounds bounds.lower bounds.upper _ hb i hi
  · intro i hi
    exact paramErrorsIndex_shape _ _ i hi

set_option maxRecDepth 100000 in
/-- C8 witness: the bound projection applied at index 0 of a concrete fit. -/
theorem curveFit_amended_witness :
    ({ lower := [(0:ℝ)], upper := [0] } : OptimizationBounds).lower.getD 0 0 ≤
      (curveFit (fun _ _ => [(0:ℝ)]) [0] [0] [0] { lower := [0], upper := [0] }
        { useGlobalOpt := false, lmOptions := { maxIterations := 0 } }).params.getD 0 0 ∧
    (curveFit (fun _ _ => [(0:ℝ)]) [0] [0] [0] { lower := [0], upper := [0] }
        { useGlobalOpt := false, lmOptions := { maxIterations := 0 } }).params.getD 0 0 ≤
      ({ lower := [(0:ℝ)], upper := [0] } : OptimizationBounds).upper.getD 0 0 := by
  have hlen1 : (curveFit (fun _ _ => [(0:ℝ)]) [0] [0] [0] { lower := [0], upper := [0] }
      { useGlobalOpt := false, lmOptions := { maxIterations := 0 } }).params.length = 1 := rfl
  exact (curveFit_amended (fun _ _ => [(0:ℝ)]) [0] [0] [0] { lower := [0], upper := [0] }
    { useGlobalOpt := false, lmOptions := { maxIterations := 0 } } (fun i => le_rfl)).1 0
    (by rw [hlen1]; norm_num)

set_option maxRecDepth 100000 in
/-- C8 counterexample: fitting the constant-zero model to a single zero
sample (no global step, zero LM iterations) yields a perfect fit, a zero
covariance diagonal, and hence `paramErrors = [some 0]` — a stored error of
exactly `0`, which is neither strictly positive nor the not-a-number
marker. -/
theorem curveFit_paramError_zero :
    (curveFit (fun _ _ => [(0:ℝ)]) [0] [0] [0] { lower := [0], upper := [0] }
      { useGlobalOpt := false, lmOptions := { maxIterations := 0 } }).paramErrors =
      [some 0] := by
  simp only [curveFit, levenbergMarquardt, lmLoop, computeJacobian, jtjOf, inverse, solve,
    elimColumn, pivotRow, swapRows, backSub, sumSquares, listMax]
  norm_num [List.range_succ, Real.sqrt_zero]

end XPS
